import Mathlib

/-!
Verification of the ark core (key hierarchy, manifest encryption, rotation
protocol) against its natural-language specification.  The Rust source is
shallowly embedded: BLS key derivation is modelled symbolically (derivation
is a free constructor, so derived keys are injective in parent and index),
public-key encryption and signing are modelled as perfect (Dolev-Yao style)
operations, and the storage network is an explicit association list from
owner addresses to stored objects.  Definitions follow the corresponding
Rust functions; external collaborators (the age envelope driver, the
protobuf codec, the network transport) are modelled from their documented
contracts.
-/

namespace Ark

/-- Byte strings are modelled as lists of naturals. -/
abbrev Bytes := List Nat

deriving instance DecidableEq for Except

/-- `u64::MAX`: the scratchpad EOL counter and EOL encoding
(`crypto/scratchpad.rs`). -/
def EOL_COUNTER : Nat := 2 ^ 64 - 1

/-- `u64::MAX` as the retired `data_encoding` tag. -/
def EOL_ENCODING : Nat := 2 ^ 64 - 1

/-- `u32::MAX`: the pointer finality marker. -/
def U32_MAX : Nat := 2 ^ 32 - 1

/-- The scratchpad tombstone payload `"RIP"` (`crypto/scratchpad.rs`). -/
def TOMBSTONE_VALUE : Bytes := [82, 73, 80]

/-- The manifest scratchpad `data_encoding` tag (`manifest.rs`). -/
def MANIFEST_ENCODING : Nat := 344850175421548714

/-- The data-keyring scratchpad `data_encoding` tag (`data_key.rs`). -/
def DATA_KEYRING_ENCODING : Nat := 845573457394578892

/-!
## Symbolic BLS keys

`TypedSecretKey` / `TypedPublicKey` wrap a BLS scalar; both support child
derivation by a 32-byte index, and the child public key is independently
derivable from the parent public key with the same index
(`crypto/keys.rs`).  Key material is modelled as a free term algebra:
derivation is a constructor, so derived keys are injective in the parent
and in the index, mirroring the collision-freeness of the real derivation.
The fixed ASCII derivation paths are content-hashed to indices; the hash
is modelled as an injective enumeration of the five paths.
-/

/-- A symbolic BLS scalar: a base scalar or a child derived by an index. -/
inductive KeyExpr where
  | base (n : Nat)
  | child (parent : KeyExpr) (idx : Nat)
deriving DecidableEq, Repr

structure SecretKey where
  key : KeyExpr
deriving DecidableEq, Repr

structure PublicKey where
  key : KeyExpr
deriving DecidableEq, Repr

/-- `SecretKey::public_key`. -/
def SecretKey.publicKey (sk : SecretKey) : PublicKey := ⟨sk.key⟩

/-- `TypedSecretKey::derive_child` (`crypto/keys.rs`). -/
def SecretKey.deriveChild (sk : SecretKey) (idx : Nat) : SecretKey := ⟨.child sk.key idx⟩

/-- `TypedPublicKey::derive_child` (`crypto/keys.rs`). -/
def PublicKey.deriveChild (pk : PublicKey) (idx : Nat) : PublicKey := ⟨.child pk.key idx⟩

/-- Derivation index of `/ark/v0/helm/register` (`helm_key.rs`). -/
def HELM_REGISTER_IDX : Nat := 0

/-- Derivation index of `/ark/v0/data/register` (`data_key.rs`). -/
def DATA_REGISTER_IDX : Nat := 1

/-- Derivation index of `/ark/v0/data/keyring/scratchpad` (`data_key.rs`). -/
def DATA_KEYRING_IDX : Nat := 2

/-- Derivation index of `/ark/v0/manifest/scratchpad` (`helm_key.rs`). -/
def MANIFEST_IDX : Nat := 3

/-- Derivation index of `/ark/v0/vault/ark/pointer` (`vault.rs`). -/
def ARK_POINTER_IDX : Nat := 4

/-!
## The multi-recipient age envelope (`crypto/encrypt/age.rs`)

The BLS primitive is modelled as perfect public-key encryption; the age
driver (`age::decrypt`, external crate) is modelled from its documented
contract: an identity unwraps stanzas via the default
`Identity::unwrap_stanzas`, a `find_map` over the stanzas in header order,
so the first stanza for which `unwrap_stanza` produces a result — success
or error — decides the outcome, and `NoMatchingKeys` is returned when no
stanza produces a result.
-/

/-- A BLS ciphertext, symbolic: recipient public key plus plaintext. -/
structure BlsCiphertext where
  recipient : PublicKey
  plain : Bytes
deriving DecidableEq, Repr

/-- `PublicKey::encrypt` (blsttc), symbolic. -/
def blsEncrypt (pk : PublicKey) (m : Bytes) : BlsCiphertext := ⟨pk, m⟩

/-- `SecretKey::decrypt` (blsttc), symbolic: succeeds exactly for the
matching secret key. -/
def blsDecrypt (sk : SecretKey) (c : BlsCiphertext) : Option Bytes :=
  if c.recipient = sk.publicKey then some c.plain else none

/-- `age_core::format::FILE_KEY_BYTES`. -/
def FILE_KEY_BYTES : Nat := 16

/-- `age::DecryptError`, restricted to the variants the scheme produces. -/
inductive DecryptError where
  | noMatchingKeys
  | decryptionFailed
  | unknownFormat
deriving DecidableEq, Repr

/-- An age header stanza: tag, arguments (the hex recipient public keys)
and body (the wrapped file key). -/
structure Stanza where
  tag : String
  args : List PublicKey
  body : BlsCiphertext
deriving DecidableEq, Repr

/-- The stanza tag used by the scheme (`crypto/encrypt/age.rs`). -/
def BLSTTC_TAG : String := "blsttc"

/-- `MyPublicKey::wrap_file_key`: one stanza per recipient, tagged
`blsttc`, args = the recipient key, body = the BLS-wrapped file key. -/
def wrapFileKey (pk : PublicKey) (fileKey : Bytes) : List Stanza :=
  [⟨BLSTTC_TAG, [pk], blsEncrypt pk fileKey⟩]

/-- `MySecretKey::unwrap_stanza`: skip foreign tags; scan the args for our
own public key, reporting `NoMatchingKeys` when absent; otherwise decrypt
the body and check the file-key length. -/
def unwrapStanza (sk : SecretKey) (st : Stanza) : Option (Except DecryptError Bytes) :=
  if st.tag ≠ BLSTTC_TAG then none
  else if ¬ sk.publicKey ∈ st.args then some (.error .noMatchingKeys)
  else
    match blsDecrypt sk st.body with
    | none => some (.error .decryptionFailed)
    | some plaintext =>
      if plaintext.length ≠ FILE_KEY_BYTES then some (.error .unknownFormat)
      else some (.ok plaintext)

/-- A sealed age envelope: header stanzas plus the payload, encrypted under
the file key (the symmetric payload encryption is modelled perfectly by
recording the key it was sealed under). -/
structure Envelope where
  stanzas : List Stanza
  payloadKey : Bytes
  payload : Bytes
deriving DecidableEq, Repr

/-- `AgeEncryptionScheme::encrypt`: wrap the file key once per recipient,
in recipient order, then seal the payload under the file key.  The file key
is drawn at random by the age crate and passed here explicitly. -/
def ageEncrypt (fileKey : Bytes) (recipients : List PublicKey) (m : Bytes) : Envelope :=
  ⟨recipients.flatMap (fun pk => wrapFileKey pk fileKey), fileKey, m⟩

/-- `AgeEncryptionScheme::decrypt` via the external age driver: the
identity's `unwrap_stanzas` is a `find_map` over the stanzas; the first
result (ok or error) decides, and `NoMatchingKeys` is the fallback when no
stanza produced a result. -/
def ageDecrypt (sk : SecretKey) (env : Envelope) : Except DecryptError Bytes :=
  match env.stanzas.findSome? (unwrapStanza sk) with
  | none => .error .noMatchingKeys
  | some (.error e) => .error e
  | some (.ok fk) =>
    if fk = env.payloadKey then .ok env.payload else .error .decryptionFailed

/-!
## Receipts (`lib.rs`)
-/

/-- A cost line item: cost and timestamp. -/
structure LineItem where
  cost : Nat
  timestamp : Nat
deriving DecidableEq, Repr

/-- `Receipt`: an append-only vector of line items. -/
structure Receipt where
  items : List LineItem
deriving DecidableEq, Repr

/-- `Receipt::new`. -/
def Receipt.new : Receipt := ⟨[]⟩

/-- `Receipt::add`: push a line item with the current time (the clock value
is passed explicitly; the source reads `Utc::now()`). -/
def Receipt.add (r : Receipt) (cost : Nat) (now : Nat) : Receipt :=
  ⟨r.items ++ [⟨cost, now⟩]⟩

/-- `Receipt::len`. -/
def Receipt.len (r : Receipt) : Nat := r.items.length

/-- `Receipt::total_cost`. -/
def Receipt.totalCost (r : Receipt) : Nat := (r.items.map LineItem.cost).sum

/-- `with_receipt` (`lib.rs`): run the operation against a fresh receipt and
return the receipt alongside the value in the success arm and alongside the
error in the failure arm. -/
def withReceipt (f : Receipt → Except ε α × Receipt) : Except (ε × Receipt) (α × Receipt) :=
  match f Receipt.new with
  | (.ok v, receipt) => .ok (v, receipt)
  | (.error e, receipt) => .error (e, receipt)

/-- One network write inside a mutating operation: its cost and whether the
put succeeds.  A mutating operation is modelled as the sequence of network
writes it attempts; each completed write records its cost on the receipt
(the `receipt.add(attos)` pattern after every successful put). -/
structure WriteStep where
  cost : Nat
  succeeds : Bool
deriving DecidableEq, Repr

/-- Run a mutating operation: perform the writes in order, recording each
completed write's cost, stopping with the error at the first failing
write.  `now` is the clock, advanced per write. -/
def runWrites (err : ε) (result : α) :
    List WriteStep → Nat → Receipt → Except ε α × Receipt
  | [], _, receipt => (.ok result, receipt)
  | s :: rest, now, receipt =>
    if s.succeeds then runWrites err result rest (now + 1) (receipt.add s.cost now)
    else (.error err, receipt)

/-!
## Scratchpads (`crypto/scratchpad.rs`)

Signing is modelled symbolically: a signature records the signer's public
key and the signed fields, and `Client::scratchpad_verify` checks that the
signature is by the pad's owner over the pad's own fields.
-/

/-- `Scratchpad::bytes_for_signature`, modelled structurally. -/
structure SignedFields where
  address : PublicKey
  dataEncoding : Nat
  content : Bytes
  counter : Nat
deriving DecidableEq, Repr

/-- A signature, symbolic. -/
structure Signature where
  signer : PublicKey
  fields : SignedFields
deriving DecidableEq, Repr

/-- `SecretKey::sign`, symbolic. -/
def sign (sk : SecretKey) (fields : SignedFields) : Signature := ⟨sk.publicKey, fields⟩

/-- A network scratchpad (`autonomi::Scratchpad`): its address is its owner
public key. -/
structure Scratchpad where
  owner : PublicKey
  dataEncoding : Nat
  content : Bytes
  counter : Nat
  signature : Signature
deriving DecidableEq, Repr

/-- `Client::scratchpad_verify`: the signature must be by the owner over
the pad's address, encoding, content and counter. -/
def scratchpadVerify (p : Scratchpad) : Bool :=
  decide (p.signature = sign ⟨p.owner.key⟩ ⟨p.owner, p.dataEncoding, p.content, p.counter⟩)

/-- `ScratchpadExt::is_mutable` on network pads. -/
def Scratchpad.isMutable (p : Scratchpad) : Bool := decide (p.counter < EOL_COUNTER)

/-- `ScratchpadExt::is_retired` on network pads. -/
def Scratchpad.isRetired (p : Scratchpad) : Bool :=
  decide (p.dataEncoding = EOL_ENCODING) && ! p.isMutable && decide (p.content = TOMBSTONE_VALUE)

/-- `PlaintextScratchpad`: the typed view of a scratchpad. -/
structure PlaintextScratchpad where
  content : Bytes
  dataEncoding : Nat
  counter : Nat
  addressOwner : PublicKey
deriving DecidableEq, Repr

/-- `PlaintextScratchpad::is_mutable`. -/
def PlaintextScratchpad.isMutable (p : PlaintextScratchpad) : Bool :=
  decide (p.counter < EOL_COUNTER)

/-- `PlaintextScratchpad::is_retired`. -/
def PlaintextScratchpad.isRetired (p : PlaintextScratchpad) : Bool :=
  decide (p.dataEncoding = EOL_ENCODING) && decide (p.counter = EOL_COUNTER)
    && decide (p.content = TOMBSTONE_VALUE)

/-- `PlaintextScratchpad::try_from_scratchpad`: refuse retired pads and a
wrong `data_encoding`. -/
def tryFromScratchpad (expectedEncoding : Nat) (p : Scratchpad) :
    Except String PlaintextScratchpad :=
  if p.isRetired then .error "scratchpad is retired"
  else if p.dataEncoding ≠ expectedEncoding then .error "incorrect data_encoding for content"
  else .ok ⟨p.content, p.dataEncoding, p.counter, p.owner⟩

/-- `TypedOwnedScratchpad`: a typed scratchpad together with its owner
secret key. -/
structure OwnedScratchpad where
  owner : SecretKey
  inner : PlaintextScratchpad
deriving DecidableEq, Repr

/-- `TypedOwnedScratchpad::new`: a fresh pad with counter 1, the content
type's encoding, and the address derived from the owner's public key. -/
def OwnedScratchpad.mk1 (content : Bytes) (encoding : Nat) (owner : SecretKey) :
    OwnedScratchpad :=
  ⟨owner, ⟨content, encoding, 1, owner.publicKey⟩⟩

/-- `PlaintextScratchpad::try_into_owned`: refuse a non-matching owner. -/
def PlaintextScratchpad.tryIntoOwned (p : PlaintextScratchpad) (owner : SecretKey) :
    Except String OwnedScratchpad :=
  if owner.publicKey ≠ p.addressOwner then .error "invalid owner"
  else .ok ⟨owner, p⟩

/-- `TypedOwnedScratchpad::is_retired`. -/
def OwnedScratchpad.isRetired (sp : OwnedScratchpad) : Bool := sp.inner.isRetired

/-- `TypedOwnedScratchpad::is_mutable`. -/
def OwnedScratchpad.isMutable (sp : OwnedScratchpad) : Bool := sp.inner.isMutable

/-- `TypedOwnedScratchpad::is_equivalent`: same counter, encoding and
content as the given network pad. -/
def OwnedScratchpad.isEquivalent (sp : OwnedScratchpad) (other : Scratchpad) : Bool :=
  decide (sp.inner.counter = other.counter)
    && decide (sp.inner.dataEncoding = other.dataEncoding)
    && decide (sp.inner.content = other.content)

/-- `TypedOwnedScratchpad::try_into_scratchpad`: refuse a non-matching
owner, sign the pad's fields with the owner secret key, and verify the
resulting pad. -/
def OwnedScratchpad.tryIntoScratchpad (sp : OwnedScratchpad) : Except String Scratchpad :=
  if sp.owner.publicKey ≠ sp.inner.addressOwner then .error "invalid owner"
  else if scratchpadVerify
      ⟨sp.owner.publicKey, sp.inner.dataEncoding, sp.inner.content, sp.inner.counter,
        sign sp.owner
          ⟨sp.inner.addressOwner, sp.inner.dataEncoding, sp.inner.content, sp.inner.counter⟩⟩ then
    .ok ⟨sp.owner.publicKey, sp.inner.dataEncoding, sp.inner.content, sp.inner.counter,
      sign sp.owner
        ⟨sp.inner.addressOwner, sp.inner.dataEncoding, sp.inner.content, sp.inner.counter⟩⟩
  else .error "scratchpad verification failed"

/-- `TypedOwnedScratchpad::update`: bump the local counter, refusing an
immutable pad or a wrong encoding. -/
def OwnedScratchpad.update (sp : OwnedScratchpad) (value : Bytes) (encoding : Nat) :
    Except String (OwnedScratchpad × Nat) :=
  if ! sp.isMutable then .error "scratchpad is immutable"
  else if encoding ≠ sp.inner.dataEncoding then .error "incorrect data_encoding for content"
  else
    let inner : PlaintextScratchpad :=
      { sp.inner with content := value, counter := sp.inner.counter + 1 }
    .ok (⟨sp.owner, inner⟩, inner.counter)

/-- `TypedOwnedScratchpad::retire`: write the tombstone (EOL counter, EOL
encoding, `"RIP"` payload), refusing already-retired and immutable pads. -/
def OwnedScratchpad.retire (sp : OwnedScratchpad) : Except String Scratchpad :=
  if sp.isRetired then .error "scratchpad already retired"
  else if ! sp.isMutable then .error "scratchpad is immutable"
  else
    OwnedScratchpad.tryIntoScratchpad
      ⟨sp.owner, ⟨TOMBSTONE_VALUE, EOL_ENCODING, EOL_COUNTER, sp.inner.addressOwner⟩⟩

/-- The result of `Core::update_scratchpad`: the counter returned to the
caller and the scratchpad written to the network, if any write happened. -/
structure UpdateResult where
  counter : Nat
  written : Option Scratchpad
deriving DecidableEq, Repr

/-- `Core::update_scratchpad` (`crypto/scratchpad.rs`): read the remote pad
(`remote` is the result of that read), refuse retired or immutable remote
state, raise the local counter to the remote one, skip the write when the
result is equivalent to the remote state, otherwise bump the counter past
the remote one and put the re-signed pad. -/
def updateScratchpad (remote : Option Scratchpad) (pad : OwnedScratchpad) :
    Except String UpdateResult :=
  match remote with
  | none => .error "scratchpad does not exist"
  | some existing =>
    if existing.isRetired then .error "scratchpad is retired"
    else if ! existing.isMutable then .error "scratchpad is immutable"
    else
      let pad1 := if existing.counter > pad.inner.counter then
          { pad with inner := { pad.inner with counter := existing.counter } } else pad
      if pad1.isEquivalent existing then .ok ⟨existing.counter, none⟩
      else
        let pad2 := if existing.counter ≥ pad1.inner.counter then
            { pad1 with inner := { pad1.inner with counter := existing.counter + 1 } } else pad1
        match pad2.tryIntoScratchpad with
        | .error e => .error e
        | .ok newPad => .ok ⟨newPad.counter, some newPad⟩

/-- The counter the specification's update rule would write: exactly one
greater than the greater of the local and the remote counter. -/
def specUpdateCounter (localCounter remoteCounter : Nat) : Nat :=
  Nat.max localCounter remoteCounter + 1

/-!
## Cache discipline around network writes (`crypto/scratchpad.rs`,
`crypto/register.rs`)

The write paths are modelled by the sequence of network and cache events
they perform, in source order.
-/

/-- The object/cache kinds involved in writes. -/
inductive CacheKind where
  | scratchpad
  | register
  | registerHistory
  | pointer
deriving DecidableEq, Repr

/-- A network put or a cache invalidation, tagged with kind and address. -/
inductive NetEvent where
  | netPut (kind : CacheKind) (addr : PublicKey)
  | invalidate (kind : CacheKind) (addr : PublicKey)
deriving DecidableEq, Repr

/-- Is the event a cache invalidation? -/
def NetEvent.isInvalidate : NetEvent → Bool
  | .invalidate _ _ => true
  | _ => false

/-- Is the event a network put? -/
def NetEvent.isPut : NetEvent → Bool
  | .netPut _ _ => true
  | _ => false

/-- `Core::_scratchpad_put` (`crypto/scratchpad.rs`): put the pad, then
invalidate the expected address in the scratchpad cache — on the success
path and on the error path alike; the address returned by the network is
discarded without invalidation. -/
def scratchpadPutEvents (addr : PublicKey) : List NetEvent :=
  [.netPut .scratchpad addr, .invalidate .scratchpad addr]

/-- `Core::update_register` (`crypto/register.rs`): after the existence
check, put the value, then invalidate the register cache and the
register-history cache for the expected address — on both outcome paths. -/
def updateRegisterEvents (addr : PublicKey) : List NetEvent :=
  [.netPut .register addr, .invalidate .register addr, .invalidate .registerHistory addr]

/-- Some cache invalidation strictly precedes a network put in the trace:
the "invalidate-before-writing" half of the claimed discipline. -/
def hasInvalidateBeforePut : List NetEvent → Bool
  | [] => false
  | e :: rest => (e.isInvalidate && rest.any NetEvent.isPut) || hasInvalidateBeforePut rest

/-- A network put strictly precedes an invalidation of the given cache kind
and address: the "invalidate-after-writing" half of the discipline. -/
def hasPutBeforeInvalidate (kind : CacheKind) (addr : PublicKey) : List NetEvent → Bool
  | [] => false
  | e :: rest =>
    (e.isPut && rest.contains (.invalidate kind addr)) || hasPutBeforeInvalidate kind addr rest

/-!
## The scratchpad store and the Helm rotation (`helm_key.rs`,
`manifest.rs`)

The network's scratchpad storage is an association list from owner
addresses to pads.  The manifest ciphertext is opaque at this level: the
re-encrypted manifest produced in step 5 of the rotation is an explicit
argument, as are the fresh random helm seed and the ark seed.
-/

/-- The scratchpad store: pads per owner address. -/
abbrev PadStore := List (PublicKey × Scratchpad)

/-- Fetch the pad stored at an address. -/
def lookupPad (pads : PadStore) (a : PublicKey) : Option Scratchpad :=
  (pads.find? (fun kv => kv.1 == a)).map Prod.snd

/-- Store a pad at an address, replacing any existing pad there. -/
def putPad : PadStore → PublicKey → Scratchpad → PadStore
  | [], a, p => [(a, p)]
  | kv :: rest, a, p =>
    if kv.1 = a then (a, p) :: rest else kv :: putPad rest a p

/-- `Core::create_scratchpad` / `create_encrypted_scratchpad`
(`crypto/scratchpad.rs`): convert the owned pad, fail when the address is
already populated, else put. -/
def createScratchpadOp (pads : PadStore) (sp : OwnedScratchpad) : Except String PadStore :=
  match sp.tryIntoScratchpad with
  | .error e => .error e
  | .ok pad =>
    if (lookupPad pads pad.owner).isSome then .error "scratchpad already exists"
    else .ok (putPad pads pad.owner pad)

/-- `Core::danger_retire_scratchpad` as used by `retire_manifest`: read the
pad at the owner's address, parse it with the expected encoding, take
ownership, retire it and put the tombstone. -/
def retireScratchpadOp (pads : PadStore) (owner : SecretKey) (encoding : Nat) :
    Except String PadStore :=
  match lookupPad pads owner.publicKey with
  | none => .error "scratchpad not found"
  | some pad =>
    match tryFromScratchpad encoding pad with
    | .error e => .error e
    | .ok plain =>
      match plain.tryIntoOwned owner with
      | .error e => .error e
      | .ok osp =>
        match osp.retire with
        | .error e => .error e
        | .ok tomb => .ok (putPad pads owner.publicKey tomb)

/-- The slice of network state a Helm rotation touches: the helm register
(the full history of helm key seeds, most recent last) and the scratchpad
store. -/
structure HelmState where
  helmRegister : List Nat
  pads : PadStore
deriving DecidableEq, Repr

/-- `PublicHelmKey::manifest`: the manifest scratchpad address of a helm
public key. -/
def manifestAddr (helmPk : PublicKey) : PublicKey := helmPk.deriveChild MANIFEST_IDX

/-- `HelmKey::manifest` owner key: the manifest scratchpad owner secret
key derived from a helm secret key. -/
def manifestOwnerKey (helmKey : SecretKey) : SecretKey := helmKey.deriveChild MANIFEST_IDX

/-- `Core::public_helm_key`: the current helm public key, derived from the
ark address and the current helm register value. -/
def currentHelmPk (st : HelmState) (arkAddress : PublicKey) : Except String PublicKey :=
  match st.helmRegister.getLast? with
  | none => .error "register not found"
  | some seed => .ok (arkAddress.deriveChild seed)

/-- `Core::retire_manifest` (`manifest.rs`): refuse while the given helm
key is still the current one, then retire the scratchpad at that helm
key's manifest address. -/
def retireManifest (st : HelmState) (arkAddress : PublicKey) (helmKey : SecretKey) :
    Except String HelmState :=
  match currentHelmPk st arkAddress with
  | .error e => .error e
  | .ok currentPk =>
    if currentPk = helmKey.publicKey then
      .error "helm_key is still active for ark, cannot retire manifest"
    else
      match retireScratchpadOp st.pads (manifestOwnerKey helmKey) MANIFEST_ENCODING with
      | .error e => .error e
      | .ok pads => .ok ⟨st.helmRegister, pads⟩

/-- `Core::_rotate_helm_key` (`helm_key.rs`): derive the current (soon
previous) helm key, read the manifest at its address, write the fresh seed
to the helm register, create the re-encrypted manifest at the NEW helm
key's manifest address, and finally retire the previous manifest.  Returns
the initial state and the state after each network write, in order, so the
ordering of the writes is visible. -/
def rotateHelm (st : HelmState) (arkSeed : SecretKey) (newSeed : Nat)
    (newCiphertext : Bytes) : Except String (List HelmState) := do
  let oldSeed ← match st.helmRegister.getLast? with
    | none => .error "register not found"
    | some s => .ok s
  let previousHelmKey := arkSeed.deriveChild oldSeed
  let oldPad ← match lookupPad st.pads (manifestAddr previousHelmKey.publicKey) with
    | none => .error "scratchpad not found"
    | some p => .ok p
  let _ ← tryFromScratchpad MANIFEST_ENCODING oldPad
  let newHelmKey := arkSeed.deriveChild newSeed
  let st1 : HelmState := ⟨st.helmRegister ++ [newSeed], st.pads⟩
  let pads2 ← createScratchpadOp st1.pads
    (OwnedScratchpad.mk1 newCiphertext MANIFEST_ENCODING (manifestOwnerKey newHelmKey))
  let st2 : HelmState := ⟨st1.helmRegister, pads2⟩
  let st3 ← retireManifest st2 arkSeed.publicKey previousHelmKey
  return [st, st1, st2, st3]

/-- A live (non-retired) manifest scratchpad sits at the address. -/
def liveManifestAt (pads : PadStore) (a : PublicKey) : Bool :=
  match lookupPad pads a with
  | some p => ! p.isRetired && decide (p.dataEncoding = MANIFEST_ENCODING)
  | none => false

/-!
## The data keyring (`crypto/keyring.rs`, `data_key.rs`)

`KeyRing` wraps a Rust `HashMap<TypedPublicKey, TypedSecretKey>`.  It is
modelled as an association list with HashMap insert semantics: inserting an
existing key replaces its value, a new key is added.  The Rust HashMap is
unordered, so no meaning attaches to the position of the entries.
-/

/-- `KeyRing`: a map from public key to secret key. -/
structure KeyRing where
  entries : List (PublicKey × SecretKey)
deriving DecidableEq, Repr

/-- `HashMap::insert`: replace the value of an existing key, append a new
key. -/
def insertKV : List (PublicKey × SecretKey) → PublicKey → SecretKey →
    List (PublicKey × SecretKey)
  | [], pk, sk => [(pk, sk)]
  | kv :: rest, pk, sk =>
    if kv.1 = pk then (pk, sk) :: rest else kv :: insertKV rest pk sk

/-- `KeyRing::len`. -/
def KeyRing.len (kr : KeyRing) : Nat := kr.entries.length

/-- `KeyRing::is_empty`. -/
def KeyRing.isEmpty (kr : KeyRing) : Bool := kr.entries.isEmpty

/-- `KeyRing::get`: the secret key stored under a public key. -/
def KeyRing.get (kr : KeyRing) (pk : PublicKey) : Option SecretKey :=
  (kr.entries.find? (fun kv => kv.1 == pk)).map Prod.snd

/-- `FromIterator<TypedSecretKey> for KeyRing`: insert every secret key
under its own public key. -/
def KeyRing.fromKeys (keys : List SecretKey) : KeyRing :=
  ⟨keys.foldl (fun entries sk => insertKV entries sk.publicKey sk) []⟩

/-- `ArkSeed::data_key`: derive a data key from the ark seed and a data key
seed (`data_key.rs`). -/
def dataKey (arkSeed : SecretKey) (seed : Nat) : SecretKey := arkSeed.deriveChild seed

/-- `Core::derive_data_keyring` (`data_key.rs`): map the data register
history (`history`, chronological) through `ark_seed.data_key` and collect
the keys into a `KeyRing`; fail when the result is empty. -/
def deriveDataKeyring (arkSeed : SecretKey) (history : List Nat) : Except String KeyRing :=
  let keyring := KeyRing.fromKeys (history.map (dataKey arkSeed))
  if keyring.isEmpty then .error "data_keyring is empty" else .ok keyring

/-!
## The manifest and the Worker rotation (`manifest.rs`, `worker_key.rs`)
-/

/-- `RetiredKey<WorkerKeyKind>`: a retired worker public key with its
retirement timestamp.  Its `Ord` compares timestamps only. -/
structure RetiredWorkerKey where
  publicKey : PublicKey
  retiredAt : Nat
deriving DecidableEq, Repr

/-- `BTreeSet<RetiredWorkerKey>::insert`: keep the list sorted by
`retired_at`; inserting an element whose timestamp already occurs leaves
the set unchanged (the `Ord` impl compares timestamps only, so such
elements are equal to the set). -/
def btreeInsertRetired : List RetiredWorkerKey → RetiredWorkerKey → List RetiredWorkerKey
  | [], k => [k]
  | x :: xs, k =>
    if k.retiredAt < x.retiredAt then k :: x :: xs
    else if k.retiredAt = x.retiredAt then x :: xs
    else x :: btreeInsertRetired xs k

/-- `VaultConfig` (`manifest.rs`): the vault record stored in the manifest,
with the UUID identity of the cited source version.  Addresses, bridges and
object types are carried by their model types. -/
structure VaultConfig where
  id : Nat
  created : Nat
  lastModified : Nat
  name : String
  description : Option String
  active : Bool
  bridge : Option PublicKey
  objectType : Nat
deriving DecidableEq, Repr

/-- `Manifest` (`manifest.rs`). -/
structure Manifest where
  arkAddress : PublicKey
  created : Nat
  lastModified : Nat
  name : String
  description : Option String
  authorizedWorker : PublicKey
  retiredWorkers : List RetiredWorkerKey
  vaults : List VaultConfig
deriving DecidableEq, Repr

/-- `Manifest::update_worker` (`manifest.rs`): replace the authorized
worker; when the previous value differed, insert it with the current time
into `retired_workers`. -/
def Manifest.updateWorker (m : Manifest) (newWorker : PublicKey) (now : Nat) : Manifest :=
  let previous := m.authorizedWorker
  let m1 := { m with authorizedWorker := newWorker }
  if previous = newWorker then m1
  else { m1 with retiredWorkers := btreeInsertRetired m1.retiredWorkers ⟨previous, now⟩ }

/-- A multi-recipient manifest ciphertext, symbolic: the recipient set (in
encryptor order: ark address, helm, worker, seal) and the plaintext. -/
structure EncManifest where
  recipients : List PublicKey
  plaintext : Manifest
deriving DecidableEq, Repr

/-- The state a standalone Worker rotation touches: the manifest scratchpad
content at the helm key's manifest address and the worker register (the
history of worker key seeds, most recent last). -/
structure WorkerState where
  manifestCipher : EncManifest
  workerRegister : List Nat
deriving DecidableEq, Repr

/-- `Core::_rotate_worker_key` (`worker_key.rs`), helm key unchanged: read
and decrypt the manifest, derive the new worker key from a fresh seed,
re-encrypt the UNCHANGED manifest with the recipient set whose worker slot
is the new worker public key, update the manifest scratchpad, and write the
new seed to the worker register.  `Manifest::update_worker` is never
invoked. -/
def rotateWorkerKey (st : WorkerState) (helmKey : SecretKey)
    (arkAddress sealKey : PublicKey) (newSeed : Nat) : WorkerState × SecretKey :=
  let manifest := st.manifestCipher.plaintext
  let newWorkerKey := helmKey.deriveChild newSeed
  let recipients : List PublicKey :=
    [arkAddress, helmKey.publicKey, newWorkerKey.publicKey, sealKey]
  (⟨⟨recipients, manifest⟩, st.workerRegister ++ [newSeed]⟩, newWorkerKey)

/-!
## Pointers and the vault trust anchor (`crypto/pointer.rs`, `vault.rs`)
-/

/-- `autonomi::PointerTarget`, restricted to the variants the accessor
distinguishes. -/
inductive PointerTarget where
  | pointerAddress (owner : PublicKey)
  | chunkAddress (a : Nat)
deriving DecidableEq, Repr

/-- A network pointer: monotonically counted, countered at `u32::MAX` when
final. -/
structure Pointer where
  counter : Nat
  target : PointerTarget
deriving DecidableEq, Repr

/-- `Pointer::is_final`: the counter has reached `u32::MAX`. -/
def Pointer.isFinal (p : Pointer) : Bool := decide (U32_MAX ≤ p.counter)

/-- `ArkPointer::from_vault_address` (`vault.rs`): the ark-pointer address
is derived from the vault address and the fixed
`/ark/v0/vault/ark/pointer` path. -/
def arkPointerAddr (vaultAddress : PublicKey) : PublicKey :=
  vaultAddress.deriveChild ARK_POINTER_IDX

/-- The interpretation of a pointer target as an Ark address
(`vault.rs`): the owner of an address target; other targets are refused. -/
def interpretTargetAsArk : PointerTarget → Except String PublicKey
  | .pointerAddress owner => .ok owner
  | .chunkAddress _ => .error "expected address pointer"

/-- `Core::_ark_from_vault_address` (`vault.rs`): look up the derived
pointer (`network` is the pointer store); absent means `None`; a non-final
pointer is refused; otherwise the target is interpreted as the Ark
address. -/
def arkFromVaultAddress (network : PublicKey → Option Pointer) (vaultAddress : PublicKey) :
    Except String (Option PublicKey) :=
  match network (arkPointerAddr vaultAddress) with
  | none => .ok none
  | some pointer =>
    if ! pointer.isFinal then .error "pointer needs to be final to be trusted"
    else
      match interpretTargetAsArk pointer.target with
      | .error e => .error e
      | .ok arkAddress => .ok (some arkAddress)

/-!
## Persistence framing (`lib.rs`, `manifest.rs`)

`serialize_with_header` / `deserialize_with_header` are generic over the
protobuf message; the prost codec itself is external (generated code), so
it enters as an explicit encode/decode pair.  The conversions between
`Manifest` and the generated proto message are source code and are
modelled field by field; the leaf string codecs (bech32 keys, timestamps)
round-trip by the wire-format contract and are carried as the values
themselves.
-/

/-- The 16-byte manifest magic header `ark_manifest_v00` (`manifest.rs`). -/
def MANIFEST_MAGIC : Bytes :=
  [0x61, 0x72, 0x6B, 0x5F, 0x6D, 0x61, 0x6E, 0x69, 0x66, 0x65, 0x73, 0x74, 0x5F, 0x76, 0x30, 0x30]

/-- Deserialization failures of the framing layer. -/
inductive FrameError where
  | tooShort
  | headerMismatch
  | decodeFailed (msg : String)
deriving DecidableEq, Repr

/-- `serialize_with_header` (`lib.rs`): magic header ++ encoded message. -/
def serializeWithHeader (encode : α → Bytes) (magic : Bytes) (m : α) : Bytes :=
  magic ++ encode m

/-- `deserialize_with_header` (`lib.rs`): check the length, check the
header, then decode the remainder. -/
def deserializeWithHeader (decode : Bytes → Except FrameError α) (magic : Bytes)
    (data : Bytes) : Except FrameError α :=
  if data.length < magic.length then .error .tooShort
  else if data.take magic.length ≠ magic then .error .headerMismatch
  else decode (data.drop magic.length)

/-- The generated proto `RetiredKey` message: both fields optional. -/
structure ProtoRetiredKey where
  publicKey : Option PublicKey
  retiredAt : Option Nat
deriving DecidableEq, Repr

/-- The generated proto `Vault` message: optional fields as generated. -/
structure ProtoVault where
  id : Option Nat
  created : Option Nat
  lastModified : Option Nat
  name : String
  description : Option String
  active : Bool
  bridge : Option PublicKey
  objectType : Option Nat
deriving DecidableEq, Repr

/-- The generated proto `Manifest` message: optional fields as generated,
retired workers as a repeated field. -/
structure ProtoManifest where
  name : String
  address : Option PublicKey
  created : Option Nat
  lastModified : Option Nat
  description : Option String
  authorizedWorker : Option PublicKey
  retiredWorkers : List ProtoRetiredKey
  vaults : List ProtoVault
deriving DecidableEq, Repr

/-- `From<RetiredKey> for proto RetiredKey` (`lib.rs` protos). -/
def toProtoRetired (rk : RetiredWorkerKey) : ProtoRetiredKey :=
  ⟨some rk.publicKey, some rk.retiredAt⟩

/-- `TryFrom<proto RetiredKey> for RetiredKey` (`lib.rs` protos): both
fields must be present. -/
def fromProtoRetired (p : ProtoRetiredKey) : Except FrameError RetiredWorkerKey :=
  match p.publicKey with
  | none => .error (.decodeFailed "public_key is missing")
  | some pk =>
    match p.retiredAt with
    | none => .error (.decodeFailed "retired_at is missing")
    | some t => .ok ⟨pk, t⟩

/-- `From<VaultConfig> for proto Vault` (`manifest.rs` protos). -/
def toProtoVault (v : VaultConfig) : ProtoVault :=
  ⟨some v.id, some v.created, some v.lastModified, v.name, v.description, v.active,
    v.bridge, some v.objectType⟩

/-- `TryFrom<proto Vault> for VaultConfig` (`manifest.rs` protos). -/
def fromProtoVault (p : ProtoVault) : Except FrameError VaultConfig :=
  match p.id with
  | none => .error (.decodeFailed "id is missing")
  | some id =>
    match p.created with
    | none => .error (.decodeFailed "created is missing")
    | some created =>
      match p.lastModified with
      | none => .error (.decodeFailed "last_modified is missing")
      | some lastModified =>
        match p.objectType with
        | none => .error (.decodeFailed "object_type is missing")
        | some objectType =>
          .ok ⟨id, created, lastModified, p.name, p.description, p.active, p.bridge, objectType⟩

/-- `From<Manifest> for proto Manifest` (`manifest.rs` protos): every
field wrapped, the retired-worker set iterated in its (time-sorted)
order. -/
def toProtoManifest (m : Manifest) : ProtoManifest :=
  ⟨m.name, some m.arkAddress, some m.created, some m.lastModified, m.description,
    some m.authorizedWorker, m.retiredWorkers.map toProtoRetired, m.vaults.map toProtoVault⟩

/-- `TryFrom<proto Manifest> for Manifest` (`manifest.rs` protos): unwrap
each field, convert every retired worker and collect them into the
`BTreeSet`, convert the vaults in order. -/
def fromProtoManifest (p : ProtoManifest) : Except FrameError Manifest := do
  let address ← match p.address with
    | none => .error (.decodeFailed "address is missing")
    | some a => .ok a
  let created ← match p.created with
    | none => .error (.decodeFailed "created is missing")
    | some c => .ok c
  let lastModified ← match p.lastModified with
    | none => .error (.decodeFailed "last_modified is missing")
    | some l => .ok l
  let authorizedWorker ← match p.authorizedWorker with
    | none => .error (.decodeFailed "authorized_worker is missing")
    | some w => .ok w
  let retiredList ← p.retiredWorkers.mapM fromProtoRetired
  let retiredWorkers := retiredList.foldl btreeInsertRetired []
  let vaults ← p.vaults.mapM fromProtoVault
  return ⟨address, created, lastModified, p.name, p.description, authorizedWorker,
    retiredWorkers, vaults⟩

/-- `Manifest::serialize` (`manifest.rs`): convert to the proto message,
encode it with the external prost codec `penc`, and frame it with the
manifest magic header. -/
def Manifest.serialize (penc : ProtoManifest → Bytes) (m : Manifest) : Bytes :=
  serializeWithHeader (fun mf => penc (toProtoManifest mf)) MANIFEST_MAGIC m

/-- `Manifest::deserialize` (`manifest.rs`): strip and check the header,
decode the proto message with the external prost codec `pdec`, and convert
it back. -/
def Manifest.deserialize (pdec : Bytes → Except FrameError ProtoManifest) (data : Bytes) :
    Except FrameError Manifest := do
  let proto ← deserializeWithHeader pdec MANIFEST_MAGIC data
  fromProtoManifest proto

/-- The `BTreeSet` iteration invariant on a manifest's retired workers:
strictly increasing retirement timestamps (elements are ordered and
deduplicated by `retired_at`, the `Ord` key). -/
def retiredWorkersSorted (l : List RetiredWorkerKey) : Prop :=
  l.Pairwise (fun a b => a.retiredAt < b.retiredAt)

/-!
## Helper lemmas
-/

/-- Fetching from a cons cell. -/
theorem lookupPad_cons (kv : PublicKey × Scratchpad) (rest : PadStore) (a : PublicKey) :
    lookupPad (kv :: rest) a = if kv.1 = a then some kv.2 else lookupPad rest a := by
  by_cases h : kv.1 = a
  · simp [lookupPad, List.find?_cons_of_pos, h]
  · have : (kv.1 == a) = false := by simpa using h
    simp [lookupPad, List.find?_cons_of_neg, this, h]

/-- Storing then fetching at the same address yields the stored pad. -/
theorem lookupPad_putPad_self (pads : PadStore) (a : PublicKey) (p : Scratchpad) :
    lookupPad (putPad pads a p) a = some p := by
  induction pads with
  | nil => simp [putPad, lookupPad_cons, lookupPad]
  | cons kv rest ih =>
    by_cases h : kv.1 = a
    · simp [putPad, if_pos h, lookupPad_cons]
    · simp [putPad, if_neg h, lookupPad_cons, h, ih]

/-- Storing at one address leaves fetches at other addresses unchanged. -/
theorem lookupPad_putPad_ne (pads : PadStore) (a b : PublicKey) (p : Scratchpad)
    (h : b ≠ a) : lookupPad (putPad pads a p) b = lookupPad pads b := by
  induction pads with
  | nil => simp [putPad, lookupPad_cons, lookupPad, Ne.symm h]
  | cons kv rest ih =>
    by_cases hk : kv.1 = a
    · subst hk
      simp [putPad, lookupPad_cons, Ne.symm h, if_neg (fun hh : kv.1 = b => h hh.symm)]
    · simp [putPad, if_neg hk, lookupPad_cons, ih]

/-- Finding in an association list cons cell. -/
theorem findKV_cons (kv : PublicKey × SecretKey) (rest : List (PublicKey × SecretKey))
    (pk : PublicKey) :
    (kv :: rest).find? (fun x => x.1 == pk)
      = if kv.1 = pk then some kv else rest.find? (fun x => x.1 == pk) := by
  by_cases h : kv.1 = pk
  · simp [List.find?_cons_of_pos, h]
  · have : (kv.1 == pk) = false := by simpa using h
    simp [List.find?_cons_of_neg, this, h]

/-- Inserting a fresh key appends it. -/
theorem insertKV_of_not_mem (l : List (PublicKey × SecretKey)) (pk : PublicKey)
    (sk : SecretKey) (h : ∀ kv ∈ l, kv.1 ≠ pk) :
    insertKV l pk sk = l ++ [(pk, sk)] := by
  induction l with
  | nil => simp [insertKV]
  | cons kv rest ih =>
    have hne : kv.1 ≠ pk := h kv (by simp)
    simp [insertKV, if_neg hne, ih (fun x hx => h x (by simp [hx]))]

/-- The generic spec of `KeyRing.fromKeys` via its fold, for a pairwise
fresh batch of keys: the length grows by the batch size, lookups of
pre-existing keys are untouched, and each inserted key is found. -/
theorem fromKeys_foldl_spec (keys : List SecretKey) (acc : List (PublicKey × SecretKey))
    (hdisj : ∀ sk ∈ keys, ∀ kv ∈ acc, kv.1 ≠ sk.publicKey)
    (hnd : (keys.map SecretKey.publicKey).Nodup) :
    (keys.foldl (fun entries sk => insertKV entries sk.publicKey sk) acc).length
        = acc.length + keys.length ∧
    (∀ pk, (∃ kv ∈ acc, kv.1 = pk) →
      (keys.foldl (fun entries sk => insertKV entries sk.publicKey sk) acc).find?
          (fun x => x.1 == pk)
        = acc.find? (fun x => x.1 == pk)) ∧
    (∀ sk ∈ keys,
      ((keys.foldl (fun entries sk => insertKV entries sk.publicKey sk) acc).find?
          (fun x => x.1 == sk.publicKey)).map Prod.snd = some sk) := by
  induction keys generalizing acc with
  | nil => simp
  | cons sk0 rest ih =>
    have hfresh : ∀ kv ∈ acc, kv.1 ≠ sk0.publicKey := hdisj sk0 (by simp)
    have hins : insertKV acc sk0.publicKey sk0 = acc ++ [(sk0.publicKey, sk0)] :=
      insertKV_of_not_mem acc sk0.publicKey sk0 hfresh
    have hnd' : (sk0.publicKey :: rest.map SecretKey.publicKey).Nodup := by
      simpa using hnd
    have hnd0 : sk0.publicKey ∉ rest.map SecretKey.publicKey :=
      (List.nodup_cons.mp hnd').1
    have hndr : (rest.map SecretKey.publicKey).Nodup := (List.nodup_cons.mp hnd').2
    have hdisj1 : ∀ sk ∈ rest, ∀ kv ∈ acc ++ [(sk0.publicKey, sk0)],
        kv.1 ≠ sk.publicKey := by
      intro sk hsk kv hkv
      rcases List.mem_append.mp hkv with hkv | hkv
      · exact hdisj sk (by simp [hsk]) kv hkv
      · simp only [List.mem_singleton] at hkv
        subst hkv
        intro hcontra
        apply hnd0
        have hmem : sk.publicKey ∈ rest.map SecretKey.publicKey :=
          List.mem_map_of_mem SecretKey.publicKey hsk
        simpa [← hcontra] using hmem
    obtain ⟨ihlen, ihpre, ihget⟩ := ih (acc ++ [(sk0.publicKey, sk0)]) hdisj1 hndr
    refine ⟨?_, ?_, ?_⟩
    · simpa [hins, Nat.add_assoc, Nat.add_comm 1 rest.length] using ihlen
    · intro pk hpk
      obtain ⟨kv, hkv, hkveq⟩ := hpk
      have hne : sk0.publicKey ≠ pk := by
        intro hcontra
        exact hfresh kv hkv (hkveq.trans hcontra.symm)
      have hpre := ihpre pk ⟨kv, by simp [hkv], hkveq⟩
      simp only [List.foldl_cons, hins]
      rw [hpre, List.find?_append]
      have hbeq : (sk0.publicKey == pk) = false := by simpa using hne
      have hsingle : List.find? (fun x => x.1 == pk) [(sk0.publicKey, sk0)] = none := by
        simp [List.find?, hbeq]
      simp [hsingle]
    · intro sk hsk
      rcases List.mem_cons.mp hsk with hsk | hsk
      · subst hsk
        have hpre := ihpre sk.publicKey ⟨(sk.publicKey, sk), by simp, rfl⟩
        simp only [List.foldl_cons, hins] at *
        rw [hpre, List.find?_append]
        have hnone : List.find? (fun x => x.1 == sk.publicKey) acc = none := by
          apply List.find?_eq_none.mpr
          intro kv hkv
          simpa using hfresh kv hkv
        simp [hnone, List.find?]
      · have := ihget sk hsk
        simpa [hins] using this

/-- Inserting a strictly later retired key appends it. -/
theorem btreeInsertRetired_append (l : List RetiredWorkerKey) (k : RetiredWorkerKey)
    (h : ∀ x ∈ l, x.retiredAt < k.retiredAt) :
    btreeInsertRetired l k = l ++ [k] := by
  induction l with
  | nil => simp [btreeInsertRetired]
  | cons x xs ih =>
    have hx : x.retiredAt < k.retiredAt := h x (by simp)
    have h1 : ¬ k.retiredAt < x.retiredAt := by omega
    have h2 : ¬ k.retiredAt = x.retiredAt := by omega
    simp [btreeInsertRetired, h1, h2, ih (fun y hy => h y (by simp [hy]))]

/-- Folding `BTreeSet::insert` over a time-sorted batch that is strictly
later than everything in the accumulator appends the batch. -/
theorem foldl_btreeInsertRetired_sorted (l : List RetiredWorkerKey)
    (acc : List RetiredWorkerKey)
    (hacc : ∀ x ∈ acc, ∀ y ∈ l, x.retiredAt < y.retiredAt)
    (hl : l.Pairwise (fun a b => a.retiredAt < b.retiredAt)) :
    l.foldl btreeInsertRetired acc = acc ++ l := by
  induction l generalizing acc with
  | nil => simp
  | cons k rest ih =>
    have hins : btreeInsertRetired acc k = acc ++ [k] :=
      btreeInsertRetired_append acc k (fun x hx => hacc x hx k (by simp))
    have hpair := List.pairwise_cons.mp hl
    have hacc1 : ∀ x ∈ acc ++ [k], ∀ y ∈ rest, x.retiredAt < y.retiredAt := by
      intro x hx y hy
      rcases List.mem_append.mp hx with hx | hx
      · exact hacc x hx y (by simp [hy])
      · simp only [List.mem_singleton] at hx
        subst hx
        exact hpair.1 y hy
    simpa [hins] using ih (acc ++ [k]) hacc1 hpair.2

/-- Decoding the proto image of a retired-worker list recovers it. -/
theorem mapM_fromProtoRetired (l : List RetiredWorkerKey) :
    (l.map toProtoRetired).mapM fromProtoRetired = Except.ok l := by
  induction l with
  | nil => rfl
  | cons x xs ih =>
    rw [List.map_cons, List.mapM_cons, ih]
    rfl

/-- Decoding the proto image of a vault list recovers it. -/
theorem mapM_fromProtoVault (l : List VaultConfig) :
    (l.map toProtoVault).mapM fromProtoVault = Except.ok l := by
  induction l with
  | nil => rfl
  | cons x xs ih =>
    rw [List.map_cons, List.mapM_cons, ih]
    rfl

/-- The proto conversion round-trips on manifests whose retired-worker set
satisfies the `BTreeSet` iteration invariant. -/
theorem fromProto_toProto_manifest (m : Manifest)
    (hs : retiredWorkersSorted m.retiredWorkers) :
    fromProtoManifest (toProtoManifest m) = .ok m := by
  have hfold : m.retiredWorkers.foldl btreeInsertRetired [] = m.retiredWorkers := by
    simpa using foldl_btreeInsertRetired_sorted m.retiredWorkers [] (by simp) hs
  simp only [fromProtoManifest, toProtoManifest, mapM_fromProtoRetired, mapM_fromProtoVault]
  show Except.ok
      { arkAddress := m.arkAddress, created := m.created, lastModified := m.lastModified,
        name := m.name, description := m.description, authorizedWorker := m.authorizedWorker,
        retiredWorkers := m.retiredWorkers.foldl btreeInsertRetired [], vaults := m.vaults }
    = Except.ok m
  rw [hfold]

/-- A verifying signature on a matching-owner pad, as built by
`try_into_scratchpad`. -/
theorem scratchpadVerify_of_match (sp : OwnedScratchpad)
    (h : sp.owner.publicKey = sp.inner.addressOwner) :
    scratchpadVerify
      ⟨sp.owner.publicKey, sp.inner.dataEncoding, sp.inner.content, sp.inner.counter,
        sign sp.owner
          ⟨sp.inner.addressOwner, sp.inner.dataEncoding, sp.inner.content, sp.inner.counter⟩⟩
      = true := by
  have he : sp.inner.addressOwner = SecretKey.publicKey sp.owner := h.symm
  simp [scratchpadVerify, sign, he, SecretKey.publicKey]

/-- `try_into_scratchpad` on a matching owner succeeds with the signed
pad. -/
theorem tryIntoScratchpad_of_match (sp : OwnedScratchpad)
    (h : sp.owner.publicKey = sp.inner.addressOwner) :
    sp.tryIntoScratchpad = .ok
      ⟨sp.owner.publicKey, sp.inner.dataEncoding, sp.inner.content, sp.inner.counter,
        sign sp.owner
          ⟨sp.inner.addressOwner, sp.inner.dataEncoding, sp.inner.content, sp.inner.counter⟩⟩ := by
  unfold OwnedScratchpad.tryIntoScratchpad
  rw [if_neg (by simp [h]), if_pos (scratchpadVerify_of_match sp h)]

/-- A successful `try_into_scratchpad` yields the pad's fields signed by
its owner. -/
theorem tryIntoScratchpad_ok (sp : OwnedScratchpad) (pad : Scratchpad)
    (h : sp.tryIntoScratchpad = .ok pad) :
    pad.owner = sp.owner.publicKey ∧
    pad.dataEncoding = sp.inner.dataEncoding ∧
    pad.content = sp.inner.content ∧
    pad.counter = sp.inner.counter ∧
    pad.signature = sign sp.owner
      ⟨sp.inner.addressOwner, sp.inner.dataEncoding, sp.inner.content, sp.inner.counter⟩ := by
  unfold OwnedScratchpad.tryIntoScratchpad at h
  by_cases hown : sp.owner.publicKey ≠ sp.inner.addressOwner
  · simp [hown] at h
  · simp only [hown, if_false] at h
    by_cases hv : scratchpadVerify
        ⟨sp.owner.publicKey, sp.inner.dataEncoding, sp.inner.content, sp.inner.counter,
          sign sp.owner
            ⟨sp.inner.addressOwner, sp.inner.dataEncoding, sp.inner.content, sp.inner.counter⟩⟩
        = true
    · simp only [hv, if_true] at h
      cases h
      simp
    · rw [if_neg (by simpa using hv)] at h
      cases h

/-!
## Claim C1 — multi-recipient envelope decryption
-/

/-- C1 (code bug): evaluating the envelope at the failing input.  With two
recipients, the first recipient's key decrypts, but the SECOND recipient's
key fails with `NoMatchingKeys`: its `unwrap_stanza` reports
`Some(Err(NoMatchingKeys))` on the first recipient's stanza instead of
skipping it with `None`, and the age driver's stanza `find_map` stops at
the first produced result.  The claim that every `k ∈ R` decrypts
regardless of position is therefore violated for every position after the
first. -/
theorem c1_multi_recipient_envelope_bug :
    (ageDecrypt ⟨.base 0⟩ (ageEncrypt (List.replicate FILE_KEY_BYTES 7)
        [SecretKey.publicKey ⟨.base 0⟩, SecretKey.publicKey ⟨.base 1⟩] [1, 2, 3])
      = .ok [1, 2, 3]) ∧
    (ageDecrypt ⟨.base 1⟩ (ageEncrypt (List.replicate FILE_KEY_BYTES 7)
        [SecretKey.publicKey ⟨.base 0⟩, SecretKey.publicKey ⟨.base 1⟩] [1, 2, 3])
      = .error .noMatchingKeys) ∧
    (ageDecrypt ⟨.base 2⟩ (ageEncrypt (List.replicate FILE_KEY_BYTES 7)
        [SecretKey.publicKey ⟨.base 0⟩, SecretKey.publicKey ⟨.base 1⟩] [1, 2, 3])
      = .error .noMatchingKeys) := by
  decide

/-!
## Claim C5 — scratchpad update protocol
-/

/-- C5 (counterexample): with remote counter 1 and local counter 3 and
differing content, `update_scratchpad` writes counter 3, not the
spec's `max(local, remote) + 1 = 4`. -/
theorem c5_counterexample :
    (updateScratchpad
        (some ⟨⟨.base 0⟩, 9, [1], 1, sign ⟨.base 0⟩ ⟨⟨.base 0⟩, 9, [1], 1⟩⟩)
        ⟨⟨.base 0⟩, ⟨[2], 9, 3, ⟨.base 0⟩⟩⟩).map UpdateResult.counter = .ok 3 ∧
    specUpdateCounter 3 1 = 4 ∧ (3 : Nat) ≠ 4 := by
  decide

/-- C5 (amended): `update_scratchpad` reads the remote state first and (i)
fails with the retired error on a tombstoned remote pad, (ii) fails with
the immutable error on a finalized remote pad, (iii) performs no write and
returns the remote counter when the requested value and encoding match the
remote ones and the local counter does not exceed the remote one, and (iv)
otherwise writes the requested content with counter
`max(local, remote + 1)` — i.e. `remote + 1` when `remote ≥ local` and the
unchanged local counter otherwise, not always `max(local, remote) + 1`. -/
theorem c5_amended (existing : Scratchpad) (pad : OwnedScratchpad)
    (hown : pad.owner.publicKey = pad.inner.addressOwner) :
    (existing.isRetired = true →
      updateScratchpad (some existing) pad = .error "scratchpad is retired") ∧
    (existing.isRetired = false → existing.isMutable = false →
      updateScratchpad (some existing) pad = .error "scratchpad is immutable") ∧
    (existing.isRetired = false → existing.isMutable = true →
      pad.inner.counter ≤ existing.counter →
      pad.inner.dataEncoding = existing.dataEncoding →
      pad.inner.content = existing.content →
      updateScratchpad (some existing) pad = .ok ⟨existing.counter, none⟩) ∧
    (existing.isRetired = false → existing.isMutable = true →
      ¬ (pad.inner.counter ≤ existing.counter ∧
          pad.inner.dataEncoding = existing.dataEncoding ∧
          pad.inner.content = existing.content) →
      updateScratchpad (some existing) pad =
        .ok ⟨Nat.max pad.inner.counter (existing.counter + 1),
          some ⟨pad.owner.publicKey, pad.inner.dataEncoding, pad.inner.content,
            Nat.max pad.inner.counter (existing.counter + 1),
            sign pad.owner ⟨pad.inner.addressOwner, pad.inner.dataEncoding,
              pad.inner.content, Nat.max pad.inner.counter (existing.counter + 1)⟩⟩⟩) := by
  refine ⟨?_, ?_, ?_, ?_⟩
  · intro hret
    simp [updateScratchpad, hret]
  · intro hret hmut
    simp [updateScratchpad, hret, hmut]
  · intro hret hmut hle henc hcontent
    by_cases hgt : existing.counter > pad.inner.counter
    · simp [updateScratchpad, hret, hmut, hgt, OwnedScratchpad.isEquivalent, henc, hcontent]
    · have hcnt : pad.inner.counter = existing.counter := by omega
      simp [updateScratchpad, hret, hmut, hgt, OwnedScratchpad.isEquivalent, henc, hcontent,
        hcnt]
  · intro hret hmut hneq
    by_cases hgt : existing.counter > pad.inner.counter
    · have hmax : Nat.max pad.inner.counter (existing.counter + 1) = existing.counter + 1 :=
        Nat.max_eq_right (by omega)
      have htry := tryIntoScratchpad_of_match
        ({ pad with inner := { pad.inner with counter := existing.counter + 1 } })
        (by simpa using hown)
      have hnequiv : ({ pad with
          inner := { pad.inner with counter := existing.counter } } : OwnedScratchpad).isEquivalent
            existing = false := by
        simp only [OwnedScratchpad.isEquivalent]
        by_cases henc : pad.inner.dataEncoding = existing.dataEncoding
        · have hcontent : ¬ pad.inner.content = existing.content := by
            intro hc
            exact hneq ⟨by omega, henc, hc⟩
          simp [hcontent]
        · simp [henc]
      simp [updateScratchpad, hret, hmut, hgt, hnequiv, htry, hmax]
    · by_cases hge : existing.counter ≥ pad.inner.counter
      · have hmax : Nat.max pad.inner.counter (existing.counter + 1) = existing.counter + 1 :=
          Nat.max_eq_right (by omega)
        have htry := tryIntoScratchpad_of_match
          ({ pad with inner := { pad.inner with counter := existing.counter + 1 } })
          (by simpa using hown)
        have hnequiv : pad.isEquivalent existing = false := by
          simp only [OwnedScratchpad.isEquivalent]
          by_cases hcnt : pad.inner.counter = existing.counter
          · by_cases henc : pad.inner.dataEncoding = existing.dataEncoding
            · have hcontent : ¬ pad.inner.content = existing.content := by
                intro hc
                exact hneq ⟨by omega, henc, hc⟩
              simp [hcontent]
            · simp [henc]
          · simp [hcnt]
        simp [updateScratchpad, hret, hmut, hgt, hge, hnequiv, htry, hmax]
      · have hcnt : ¬ pad.inner.counter = existing.counter := by omega
        have hmax : Nat.max pad.inner.counter (existing.counter + 1) = pad.inner.counter :=
          Nat.max_eq_left (by omega)
        have htry := tryIntoScratchpad_of_match pad hown
        have hnequiv : pad.isEquivalent existing = false := by
          simp [OwnedScratchpad.isEquivalent, hcnt]
        simp [updateScratchpad, hret, hmut, hgt, hge, hnequiv, htry, hmax]

/-- C5 witness: the amended theorem applied at a concrete input — the
idempotent arm returns the remote counter without a write. -/
theorem c5_amended_witness :
    updateScratchpad
        (some ⟨⟨.base 0⟩, 9, [1], 2, sign ⟨.base 0⟩ ⟨⟨.base 0⟩, 9, [1], 2⟩⟩)
        ⟨⟨.base 0⟩, ⟨[1], 9, 1, ⟨.base 0⟩⟩⟩ = .ok ⟨2, none⟩ :=
  (c5_amended ⟨⟨.base 0⟩, 9, [1], 2, sign ⟨.base 0⟩ ⟨⟨.base 0⟩, 9, [1], 2⟩⟩
      ⟨⟨.base 0⟩, ⟨[1], 9, 1, ⟨.base 0⟩⟩⟩ rfl).2.2.1
    (by decide) (by decide) (by decide) rfl rfl

/-!
## Claim C6 — cache invalidation discipline
-/

/-- C6 (counterexample): the write paths perform NO cache invalidation
before the network put — the trace of `_scratchpad_put` and of
`update_register` has every invalidation strictly after the put, refuting
the claimed invalidate-before-writing half of the discipline. -/
theorem c6_counterexample :
    hasInvalidateBeforePut (scratchpadPutEvents ⟨.base 0⟩) = false ∧
    hasInvalidateBeforePut (updateRegisterEvents ⟨.base 0⟩) = false := by
  decide

/-- C6 (amended): every network write of a cached object kind invalidates
the corresponding cache entries AFTER the network put (on the success and
the failure path alike), and never before it; only the expected address is
invalidated — scratchpad puts invalidate the scratchpad cache, register
updates invalidate both the register and the register-history cache. -/
theorem c6_amended (addr : PublicKey) :
    hasPutBeforeInvalidate .scratchpad addr (scratchpadPutEvents addr) = true ∧
    hasInvalidateBeforePut (scratchpadPutEvents addr) = false ∧
    hasPutBeforeInvalidate .register addr (updateRegisterEvents addr) = true ∧
    hasPutBeforeInvalidate .registerHistory addr (updateRegisterEvents addr) = true ∧
    hasInvalidateBeforePut (updateRegisterEvents addr) = false := by
  refine ⟨?_, ?_, ?_, ?_, ?_⟩ <;>
    simp [scratchpadPutEvents, updateRegisterEvents, hasPutBeforeInvalidate,
      hasInvalidateBeforePut, NetEvent.isPut, NetEvent.isInvalidate, List.contains]

/-!
## Claim C8 — the costly-result discipline
-/

/-- Running a write sequence appends exactly the costs of the leading
successful writes to the receipt, and the outcome is `ok` exactly when
every write succeeds. -/
theorem runWrites_receipt (err : ε) (result : α) (steps : List WriteStep) (now : Nat)
    (r : Receipt) :
    ((runWrites err result steps now r).2.items.map LineItem.cost
      = r.items.map LineItem.cost ++ (steps.takeWhile WriteStep.succeeds).map WriteStep.cost)
    ∧ ((runWrites err result steps now r).1
      = if steps.all WriteStep.succeeds then .ok result else .error err) := by
  induction steps generalizing now r with
  | nil => simp [runWrites]
  | cons s rest ih =>
    obtain ⟨h1, h2⟩ := ih (now + 1) (r.add s.cost now)
    by_cases hs : s.succeeds
    · constructor
      · show (runWrites err result (s :: rest) now r).2.items.map LineItem.cost = _
        simp only [runWrites]
        rw [if_pos hs, h1]
        simp [Receipt.add, List.takeWhile_cons, hs]
      · show (runWrites err result (s :: rest) now r).1 = _
        simp only [runWrites]
        rw [if_pos hs, h2]
        simp [List.all_cons, hs]
    · have hs' : s.succeeds = false := by simpa using hs
      constructor
      · show (runWrites err result (s :: rest) now r).2.items.map LineItem.cost = _
        simp only [runWrites]
        rw [if_neg (by simp [hs'])]
        simp [List.takeWhile_cons, hs']
      · show (runWrites err result (s :: rest) now r).1 = _
        simp only [runWrites]
        rw [if_neg (by simp [hs'])]
        simp [List.all_cons, hs']

/-- C8: `with_receipt` wraps a mutating operation — a sequence of costed
network writes — so that it returns `Ok((value, receipt))` when every write
succeeds and `Err((error, receipt))` at the first failing write, and in the
failure arm the receipt holds exactly the cost line items of the writes
completed before the failure. -/
theorem c8_with_receipt_costly_result (steps : List WriteStep) (v : α) (e : ε) :
    (steps.all WriteStep.succeeds = true ∧
      ∃ receipt : Receipt, withReceipt (runWrites e v steps 0) = .ok (v, receipt) ∧
        receipt.items.map LineItem.cost = steps.map WriteStep.cost) ∨
    (steps.all WriteStep.succeeds = false ∧
      ∃ receipt : Receipt, withReceipt (runWrites e v steps 0) = .error (e, receipt) ∧
        receipt.items.map LineItem.cost
          = (steps.takeWhile WriteStep.succeeds).map WriteStep.cost) := by
  obtain ⟨hitems, hout⟩ := runWrites_receipt e v steps 0 Receipt.new
  by_cases hall : steps.all WriteStep.succeeds
  · left
    refine ⟨hall, (runWrites e v steps 0 Receipt.new).2, ?_, ?_⟩
    · unfold withReceipt
      rcases hrun : runWrites e v steps 0 Receipt.new with ⟨out, receipt⟩
      rw [hrun] at hout
      simp only [hall, if_true] at hout
      simp [hout]
    · rw [hitems]
      have : steps.takeWhile WriteStep.succeeds = steps :=
        List.takeWhile_eq_self_iff.mpr (by simpa [List.all_eq_true] using hall)
      simp [Receipt.new, this]
  · right
    have hall' : steps.all WriteStep.succeeds = false := by simpa using hall
    refine ⟨hall', (runWrites e v steps 0 Receipt.new).2, ?_, ?_⟩
    · unfold withReceipt
      rcases hrun : runWrites e v steps 0 Receipt.new with ⟨out, receipt⟩
      rw [hrun] at hout
      simp only [hall', Bool.false_eq_true, if_false] at hout
      simp [hout]
    · rw [hitems]
      simp [Receipt.new]

/-!
## Claim C2 — the data keyring after rotations
-/

/-- C2 (counterexample): the claim asserts that after `N` rotations the
keyring length is `N + 1` unconditionally; with a register history of two
identical seeds (one rotation that drew the same random seed), the keyring
— a map keyed by the derived public key — collapses to one entry. -/
theorem c2_counterexample :
    (deriveDataKeyring ⟨.base 0⟩ [5, 5]).map KeyRing.len = .ok 1 ∧
    [5, 5].length = 1 + 1 ∧ (1 : Nat) ≠ 1 + 1 := by
  decide

/-- C2 (amended): after `N` data-key rotations whose seeds are pairwise
distinct (derive pairwise-distinct public keys), `derive_data_keyring`
succeeds and the keyring has length `N + 1` — the register history length —
and contains every historical data secret key, addressed by its public
key.  The keyring itself is an unordered map; the chronological order is
carried by the register history, not by the keyring. -/
theorem c2_amended (arkSeed : SecretKey) (history : List Nat)
    (hne : history ≠ []) (hnd : history.Nodup) :
    ∃ kr : KeyRing, deriveDataKeyring arkSeed history = .ok kr ∧
      kr.len = history.length ∧
      ∀ seed ∈ history, kr.get (dataKey arkSeed seed).publicKey
        = some (dataKey arkSeed seed) := by
  have hinj : Function.Injective (fun s : Nat => (dataKey arkSeed s).publicKey) := by
    intro a b hab
    simpa [dataKey, SecretKey.deriveChild, SecretKey.publicKey] using hab
  have hndpk : ((history.map (dataKey arkSeed)).map SecretKey.publicKey).Nodup := by
    rw [List.map_map]
    exact hnd.map hinj
  have hdisj : ∀ sk ∈ history.map (dataKey arkSeed),
      ∀ kv ∈ ([] : List (PublicKey × SecretKey)), kv.1 ≠ sk.publicKey := by
    simp
  obtain ⟨hlen, _, hget⟩ := fromKeys_foldl_spec (history.map (dataKey arkSeed)) [] hdisj hndpk
  have hlen' : (KeyRing.fromKeys (history.map (dataKey arkSeed))).len = history.length := by
    simpa [KeyRing.fromKeys, KeyRing.len] using hlen
  have hle : history.length ≠ 0 := fun h => hne (List.length_eq_zero.mp h)
  have hlen2 : (KeyRing.fromKeys (history.map (dataKey arkSeed))).entries.length
      = history.length := by simpa [KeyRing.len] using hlen'
  have hnonempty : (KeyRing.fromKeys (history.map (dataKey arkSeed))).isEmpty = false := by
    rcases hk : (KeyRing.fromKeys (history.map (dataKey arkSeed))).entries with _ | ⟨kv, rest⟩
    · exfalso
      apply hle
      rw [← hlen2, hk]
      rfl
    · simp [KeyRing.isEmpty, hk]
  refine ⟨KeyRing.fromKeys (history.map (dataKey arkSeed)), ?_, hlen', ?_⟩
  · simp [deriveDataKeyring, hnonempty]
  · intro seed hseed
    have := hget (dataKey arkSeed seed) (List.mem_map_of_mem (dataKey arkSeed) hseed)
    simpa [KeyRing.fromKeys, KeyRing.get] using this

/-- C2 witness: the amended theorem applied to a three-entry history (two
rotations). -/
theorem c2_amended_witness :
    ∃ kr : KeyRing, deriveDataKeyring ⟨.base 0⟩ [3, 4, 5] = .ok kr ∧
      kr.len = [3, 4, 5].length ∧
      ∀ seed ∈ [3, 4, 5], kr.get (dataKey ⟨.base 0⟩ seed).publicKey
        = some (dataKey ⟨.base 0⟩ seed) :=
  c2_amended ⟨.base 0⟩ [3, 4, 5] (by decide) (by decide)

/-!
## Claim C4 — worker rotation and the retired-worker audit trail
-/

/-- C4 (counterexample): a worker rotation with a fresh key leaves the
manifest's `retired_workers` set empty — the previous authorized worker
public key is NOT inserted, because `_rotate_worker_key` never calls
`update_worker`; it re-encrypts the unchanged manifest and records the new
worker in the worker register instead. -/
theorem c4_counterexample :
    (rotateWorkerKey
        ⟨⟨[⟨.base 9⟩, SecretKey.publicKey ⟨.base 1⟩, ⟨.base 3⟩, ⟨.base 4⟩],
          ⟨⟨.base 9⟩, 0, 0, "a", none, ⟨.base 3⟩, [], []⟩⟩, [0]⟩
        ⟨.base 1⟩ ⟨.base 9⟩ ⟨.base 4⟩ 2).2.publicKey ≠ (⟨.base 3⟩ : PublicKey) ∧
    (rotateWorkerKey
        ⟨⟨[⟨.base 9⟩, SecretKey.publicKey ⟨.base 1⟩, ⟨.base 3⟩, ⟨.base 4⟩],
          ⟨⟨.base 9⟩, 0, 0, "a", none, ⟨.base 3⟩, [], []⟩⟩, [0]⟩
        ⟨.base 1⟩ ⟨.base 9⟩ ⟨.base 4⟩ 2).1.manifestCipher.plaintext.retiredWorkers = [] ∧
    ¬ (⟨.base 3⟩ : PublicKey) ∈
      ((rotateWorkerKey
          ⟨⟨[⟨.base 9⟩, SecretKey.publicKey ⟨.base 1⟩, ⟨.base 3⟩, ⟨.base 4⟩],
            ⟨⟨.base 9⟩, 0, 0, "a", none, ⟨.base 3⟩, [], []⟩⟩, [0]⟩
          ⟨.base 1⟩ ⟨.base 9⟩ ⟨.base 4⟩
          2).1.manifestCipher.plaintext.retiredWorkers.map RetiredWorkerKey.publicKey) := by
  decide

/-- C4 (amended): worker rotation reads the manifest and re-encrypts it
UNCHANGED under the recipient set carrying the new worker public key, and
appends the new worker seed to the worker register; `update_worker` itself
does set `authorized_worker` to the new key and, when the previous value
differed, insert `(previous, now)` into `retired_workers` — but worker
rotation never invokes it, so the manifest's `authorized_worker` and
`retired_workers` are unchanged by a rotation. -/
theorem c4_amended (st : WorkerState) (helmKey : SecretKey)
    (arkAddress sealKey : PublicKey) (newSeed : Nat) (m : Manifest)
    (newWorker : PublicKey) (now : Nat) :
    ((rotateWorkerKey st helmKey arkAddress sealKey newSeed).1.manifestCipher.plaintext
      = st.manifestCipher.plaintext) ∧
    ((rotateWorkerKey st helmKey arkAddress sealKey newSeed).1.manifestCipher.recipients
      = [arkAddress, helmKey.publicKey,
          (rotateWorkerKey st helmKey arkAddress sealKey newSeed).2.publicKey, sealKey]) ∧
    ((rotateWorkerKey st helmKey arkAddress sealKey newSeed).1.workerRegister
      = st.workerRegister ++ [newSeed]) ∧
    (m.authorizedWorker ≠ newWorker →
      (m.updateWorker newWorker now).authorizedWorker = newWorker ∧
      (m.updateWorker newWorker now).retiredWorkers
        = btreeInsertRetired m.retiredWorkers ⟨m.authorizedWorker, now⟩) ∧
    (m.authorizedWorker = newWorker →
      m.updateWorker newWorker now = { m with authorizedWorker := newWorker }) := by
  refine ⟨rfl, rfl, rfl, ?_, ?_⟩
  · intro hne
    simp [Manifest.updateWorker, hne]
  · intro heq
    simp [Manifest.updateWorker, heq]

/-- C4 witness: the amended theorem applied at concrete inputs, with the
`update_worker` arm discharged for a differing key. -/
theorem c4_amended_witness :
    ((⟨⟨.base 9⟩, 0, 0, "a", none, ⟨.base 3⟩, [], []⟩ : Manifest).updateWorker
        ⟨.base 4⟩ 11).authorizedWorker = ⟨.base 4⟩ ∧
    ((⟨⟨.base 9⟩, 0, 0, "a", none, ⟨.base 3⟩, [], []⟩ : Manifest).updateWorker
        ⟨.base 4⟩ 11).retiredWorkers
      = btreeInsertRetired [] ⟨⟨.base 3⟩, 11⟩ :=
  (c4_amended ⟨⟨[], ⟨⟨.base 9⟩, 0, 0, "a", none, ⟨.base 3⟩, [], []⟩⟩, []⟩ ⟨.base 1⟩
      ⟨.base 9⟩ ⟨.base 4⟩ 2 ⟨⟨.base 9⟩, 0, 0, "a", none, ⟨.base 3⟩, [], []⟩
      ⟨.base 4⟩ 11).2.2.2.1 (by decide)

/-!
## Claim C9 — the vault-to-ark trust anchor
-/

/-- C9: `ark_from_vault_address` reads the pointer at the address derived
from the vault address and the fixed ark-pointer path; it returns `None`
when the pointer does not exist, fails when the pointer is still mutable
(counter below `u32::MAX`), and otherwise returns the pointer's target
interpreted as the Ark address. -/
theorem c9_ark_from_vault_address (network : PublicKey → Option Pointer) (v : PublicKey) :
    (network (arkPointerAddr v) = none → arkFromVaultAddress network v = .ok none) ∧
    (∀ p : Pointer, network (arkPointerAddr v) = some p → p.counter < U32_MAX →
      arkFromVaultAddress network v = .error "pointer needs to be final to be trusted") ∧
    (∀ p : Pointer, network (arkPointerAddr v) = some p → U32_MAX ≤ p.counter →
      arkFromVaultAddress network v = (interpretTargetAsArk p.target).map some) := by
  refine ⟨?_, ?_, ?_⟩
  · intro h
    simp [arkFromVaultAddress, h]
  · intro p hp hmut
    have hfin : p.isFinal = false := by simp [Pointer.isFinal]; omega
    simp [arkFromVaultAddress, hp, hfin]
  · intro p hp hfin
    have hfin' : p.isFinal = true := by simp [Pointer.isFinal, hfin]
    rcases ht : p.target with owner | a
    · simp [arkFromVaultAddress, hp, hfin', ht, interpretTargetAsArk, Except.map]
    · simp [arkFromVaultAddress, hp, hfin', ht, interpretTargetAsArk, Except.map]

/-- C9 witness: the theorem applied to a one-pointer network — a final
pointer whose target is an address yields that address's owner as the Ark
address. -/
theorem c9_witness :
    arkFromVaultAddress
        (fun a => if a = arkPointerAddr ⟨.base 0⟩ then
          some ⟨U32_MAX, .pointerAddress ⟨.base 7⟩⟩ else none) ⟨.base 0⟩
      = .ok (some ⟨.base 7⟩) := by
  have h := (c9_ark_from_vault_address
      (fun a => if a = arkPointerAddr ⟨.base 0⟩ then
        some ⟨U32_MAX, .pointerAddress ⟨.base 7⟩⟩ else none) ⟨.base 0⟩).2.2
      ⟨U32_MAX, .pointerAddress ⟨.base 7⟩⟩ (by simp) (le_refl _)
  simpa [interpretTargetAsArk] using h

/-!
## Claim C10 — the scratchpad owner discipline
-/

/-- C10: every scratchpad the core sends to the network is produced by
`try_into_scratchpad`, which fails with the invalid-owner error whenever
the signing key's public key differs from the owner embedded in the
address; a successful conversion yields a pad signed by the secret key
matching its address owner; converting a fetched pad into an owned one
with a non-matching secret key always fails; and any pad written by
`update_scratchpad` carries a signature by its own address owner. -/
theorem c10_owner_discipline :
    (∀ sp : OwnedScratchpad, sp.owner.publicKey ≠ sp.inner.addressOwner →
      sp.tryIntoScratchpad = .error "invalid owner") ∧
    (∀ (sp : OwnedScratchpad) (pad : Scratchpad), sp.tryIntoScratchpad = .ok pad →
      pad.owner = sp.owner.publicKey ∧ pad.signature.signer = pad.owner ∧
        scratchpadVerify pad = true) ∧
    (∀ (p : PlaintextScratchpad) (sk : SecretKey), sk.publicKey ≠ p.addressOwner →
      p.tryIntoOwned sk = .error "invalid owner") ∧
    (∀ (remote : Option Scratchpad) (sp : OwnedScratchpad) (r : UpdateResult)
        (w : Scratchpad), updateScratchpad remote sp = .ok r → r.written = some w →
      w.signature.signer = w.owner ∧ scratchpadVerify w = true) := by
  have hok : ∀ (sp : OwnedScratchpad) (pad : Scratchpad), sp.tryIntoScratchpad = .ok pad →
      pad.owner = sp.owner.publicKey ∧ pad.signature.signer = pad.owner ∧
        scratchpadVerify pad = true := by
    intro sp pad h
    unfold OwnedScratchpad.tryIntoScratchpad at h
    by_cases hown : sp.owner.publicKey ≠ sp.inner.addressOwner
    · simp [hown] at h
    · rw [if_neg hown] at h
      by_cases hv : scratchpadVerify
          ⟨sp.owner.publicKey, sp.inner.dataEncoding, sp.inner.content, sp.inner.counter,
            sign sp.owner ⟨sp.inner.addressOwner, sp.inner.dataEncoding, sp.inner.content,
              sp.inner.counter⟩⟩ = true
      · rw [if_pos hv] at h
        cases h
        exact ⟨rfl, rfl, hv⟩
      · rw [if_neg (by simpa using hv)] at h
        cases h
  refine ⟨?_, hok, ?_, ?_⟩
  · intro sp h
    simp [OwnedScratchpad.tryIntoScratchpad, h]
  · intro p sk h
    simp [PlaintextScratchpad.tryIntoOwned, h]
  · intro remote sp r w hupd hw
    rcases remote with _ | existing
    · simp [updateScratchpad] at hupd
    · simp only [updateScratchpad] at hupd
      by_cases hret : existing.isRetired = true
      · rw [if_pos hret] at hupd
        simp at hupd
      · rw [if_neg hret] at hupd
        by_cases hmut : (! existing.isMutable) = true
        · rw [if_pos hmut] at hupd
          simp at hupd
        · rw [if_neg hmut] at hupd
          generalize hpad1def : (if existing.counter > sp.inner.counter then
              { sp with inner := { sp.inner with counter := existing.counter } }
              else sp) = pad1 at hupd
          by_cases hequiv : pad1.isEquivalent existing = true
          · rw [if_pos hequiv] at hupd
            have hupd2 : (Except.ok ⟨existing.counter, none⟩ : Except String UpdateResult)
                = .ok r := hupd
            cases hupd2
            simp at hw
          · rw [if_neg hequiv] at hupd
            generalize hpad2def : (if existing.counter ≥ pad1.inner.counter then
                { pad1 with inner := { pad1.inner with counter := existing.counter + 1 } }
                else pad1) = pad2 at hupd
            rcases htry : pad2.tryIntoScratchpad with e | newPad
            · rw [htry] at hupd
              simp at hupd
            · rw [htry] at hupd
              have hupd2 : (Except.ok ⟨newPad.counter, some newPad⟩
                  : Except String UpdateResult) = .ok r := hupd
              cases hupd2
              have hw2 : some newPad = some w := hw
              simp only [Option.some.injEq] at hw2
              subst hw2
              obtain ⟨h1, h2, h3⟩ := hok _ _ htry
              exact ⟨h2, h3⟩

/-- C10 witness: the theorem's invalid-owner arms applied at concrete
mismatching inputs. -/
theorem c10_witness :
    (OwnedScratchpad.mk ⟨.base 0⟩ ⟨[1], 9, 1, ⟨.base 1⟩⟩).tryIntoScratchpad
      = .error "invalid owner" ∧
    (PlaintextScratchpad.mk [1] 9 1 ⟨.base 1⟩).tryIntoOwned ⟨.base 0⟩
      = .error "invalid owner" :=
  ⟨c10_owner_discipline.1 ⟨⟨.base 0⟩, ⟨[1], 9, 1, ⟨.base 1⟩⟩⟩ (by decide),
    c10_owner_discipline.2.2.1 ⟨[1], 9, 1, ⟨.base 1⟩⟩ ⟨.base 0⟩ (by decide)⟩

/-!
## Claim C7 — manifest serialization framing
-/

/-- C7 (counterexample): a byte string shorter than the 16-byte header is
rejected with the distinct too-short error, not the header-mismatch error
the claim assigns to every input whose leading bytes differ from the
magic. -/
theorem c7_counterexample :
    Manifest.deserialize (fun _ => .error (.decodeFailed "unused")) [] = .error .tooShort ∧
    FrameError.tooShort ≠ FrameError.headerMismatch := by
  exact ⟨rfl, by decide⟩

/-- C7 (amended): serializing a manifest and deserializing the result
yields the manifest back (given the external protobuf codec's round-trip
contract and the `BTreeSet` iteration invariant on the retired workers);
an input shorter than the 16-byte header fails with the too-short error
and any other input whose leading 16 bytes differ from the magic fails
with the header-mismatch error — in both cases without invoking the
payload decoder, whatever it is. -/
theorem c7_amended :
    (∀ (m : Manifest) (penc : ProtoManifest → Bytes)
        (pdec : Bytes → Except FrameError ProtoManifest),
      retiredWorkersSorted m.retiredWorkers →
      pdec (penc (toProtoManifest m)) = .ok (toProtoManifest m) →
      Manifest.deserialize pdec (Manifest.serialize penc m) = .ok m) ∧
    (∀ (pdec : Bytes → Except FrameError ProtoManifest) (data : Bytes),
      data.length < MANIFEST_MAGIC.length →
      Manifest.deserialize pdec data = .error .tooShort) ∧
    (∀ (pdec : Bytes → Except FrameError ProtoManifest) (data : Bytes),
      MANIFEST_MAGIC.length ≤ data.length →
      data.take MANIFEST_MAGIC.length ≠ MANIFEST_MAGIC →
      Manifest.deserialize pdec data = .error .headerMismatch) := by
  refine ⟨?_, ?_, ?_⟩
  · intro m penc pdec hs hrt
    unfold Manifest.deserialize Manifest.serialize serializeWithHeader deserializeWithHeader
    have hlen : ¬ (MANIFEST_MAGIC ++ penc (toProtoManifest m)).length
        < MANIFEST_MAGIC.length := by
      simp [List.length_append]
    rw [if_neg hlen]
    have htake : (MANIFEST_MAGIC ++ penc (toProtoManifest m)).take MANIFEST_MAGIC.length
        = MANIFEST_MAGIC := List.take_left _ _
    rw [if_neg (by simp [htake])]
    have hdrop : (MANIFEST_MAGIC ++ penc (toProtoManifest m)).drop MANIFEST_MAGIC.length
        = penc (toProtoManifest m) := List.drop_left _ _
    rw [hdrop, hrt]
    exact fromProto_toProto_manifest m hs
  · intro pdec data hlt
    unfold Manifest.deserialize deserializeWithHeader
    rw [if_pos hlt]
    rfl
  · intro pdec data hge hne
    unfold Manifest.deserialize deserializeWithHeader
    rw [if_neg (by omega), if_pos hne]
    rfl

/-- C7 witness: the amended round-trip applied to a concrete manifest with
two retired workers and one vault, using a pointwise-correct payload
codec. -/
theorem c7_amended_witness :
    Manifest.deserialize
        (fun _ => .ok (toProtoManifest ⟨⟨.base 9⟩, 0, 1, "ark", some "d", ⟨.base 3⟩,
          [⟨⟨.base 5⟩, 1⟩, ⟨⟨.base 6⟩, 2⟩], [⟨1, 2, 3, "v", none, true, none, 4⟩]⟩))
        (Manifest.serialize (fun _ => [0])
          ⟨⟨.base 9⟩, 0, 1, "ark", some "d", ⟨.base 3⟩,
            [⟨⟨.base 5⟩, 1⟩, ⟨⟨.base 6⟩, 2⟩], [⟨1, 2, 3, "v", none, true, none, 4⟩]⟩)
      = .ok ⟨⟨.base 9⟩, 0, 1, "ark", some "d", ⟨.base 3⟩,
          [⟨⟨.base 5⟩, 1⟩, ⟨⟨.base 6⟩, 2⟩], [⟨1, 2, 3, "v", none, true, none, 4⟩]⟩ :=
  c7_amended.1
    ⟨⟨.base 9⟩, 0, 1, "ark", some "d", ⟨.base 3⟩,
      [⟨⟨.base 5⟩, 1⟩, ⟨⟨.base 6⟩, 2⟩], [⟨1, 2, 3, "v", none, true, none, 4⟩]⟩
    (fun _ => [0])
    (fun _ => .ok (toProtoManifest ⟨⟨.base 9⟩, 0, 1, "ark", some "d", ⟨.base 3⟩,
      [⟨⟨.base 5⟩, 1⟩, ⟨⟨.base 6⟩, 2⟩], [⟨1, 2, 3, "v", none, true, none, 4⟩]⟩))
    (by unfold retiredWorkersSorted; decide) rfl

/-!
## Claim C3 — Helm rotation keeps a live manifest at every step
-/

/-- C3: in a Helm rotation the new manifest scratchpad at the new Helm
key's manifest address is created (step 5) before the previous Helm key's
manifest scratchpad is retired (step 6): the rotation succeeds, the
initial state and the state after every network write hold at least one
live (non-retired) manifest, the state between the create and the retire
holds BOTH manifests live, and in the final state the previous Helm key's
manifest scratchpad is retired while the new one is live. -/
theorem c3_helm_rotation_live_manifests (arkSeed : SecretKey) (st : HelmState)
    (oldSeed newSeed : Nat) (oldPad : Scratchpad) (newCiphertext : Bytes)
    (h1 : st.helmRegister.getLast? = some oldSeed)
    (h2 : newSeed ≠ oldSeed)
    (h3 : lookupPad st.pads (manifestAddr (SecretKey.publicKey (arkSeed.deriveChild oldSeed)))
      = some oldPad)
    (h4 : oldPad.owner = manifestAddr (SecretKey.publicKey (arkSeed.deriveChild oldSeed)))
    (h5 : oldPad.dataEncoding = MANIFEST_ENCODING)
    (h6 : oldPad.counter < EOL_COUNTER)
    (h7 : lookupPad st.pads (manifestAddr (SecretKey.publicKey (arkSeed.deriveChild newSeed)))
      = none) :
    ∃ st1 st2 st3 : HelmState,
      rotateHelm st arkSeed newSeed newCiphertext = .ok [st, st1, st2, st3] ∧
      (∀ s ∈ [st, st1, st2, st3], ∃ a, liveManifestAt s.pads a = true) ∧
      liveManifestAt st2.pads
        (manifestAddr (SecretKey.publicKey (arkSeed.deriveChild newSeed))) = true ∧
      liveManifestAt st2.pads
        (manifestAddr (SecretKey.publicKey (arkSeed.deriveChild oldSeed))) = true ∧
      (∃ tomb : Scratchpad,
        lookupPad st3.pads
          (manifestAddr (SecretKey.publicKey (arkSeed.deriveChild oldSeed))) = some tomb ∧
        tomb.isRetired = true) ∧
      liveManifestAt st3.pads
        (manifestAddr (SecretKey.publicKey (arkSeed.deriveChild newSeed))) = true := by
  have hEncNeq : (decide (MANIFEST_ENCODING = EOL_ENCODING)) = false := by decide
  have hnotret : oldPad.isRetired = false := by
    simp [Scratchpad.isRetired, h5, hEncNeq]
  have hparse : tryFromScratchpad MANIFEST_ENCODING oldPad
      = .ok ⟨oldPad.content, oldPad.dataEncoding, oldPad.counter, oldPad.owner⟩ := by
    unfold tryFromScratchpad
    rw [if_neg (by simp [hnotret]), if_neg (by simp [h5])]
  -- the two manifest owner keys and addresses, in the forms the rotation uses
  have h3o : lookupPad st.pads
      (SecretKey.publicKey (manifestOwnerKey (arkSeed.deriveChild oldSeed))) = some oldPad := h3
  have h4o : oldPad.owner
      = SecretKey.publicKey (manifestOwnerKey (arkSeed.deriveChild oldSeed)) := h4
  have h7o : lookupPad st.pads
      (SecretKey.publicKey (manifestOwnerKey (arkSeed.deriveChild newSeed))) = none := h7
  have haddr : SecretKey.publicKey (manifestOwnerKey (arkSeed.deriveChild oldSeed))
      ≠ SecretKey.publicKey (manifestOwnerKey (arkSeed.deriveChild newSeed)) := by
    simp [manifestOwnerKey, SecretKey.publicKey, SecretKey.deriveChild, Ne.symm h2]
  -- the pad created at the new manifest address
  have hcreate : createScratchpadOp st.pads
      (OwnedScratchpad.mk1 newCiphertext MANIFEST_ENCODING
        (manifestOwnerKey (arkSeed.deriveChild newSeed)))
      = .ok (putPad st.pads
          (SecretKey.publicKey (manifestOwnerKey (arkSeed.deriveChild newSeed)))
          ⟨SecretKey.publicKey (manifestOwnerKey (arkSeed.deriveChild newSeed)),
            MANIFEST_ENCODING, newCiphertext, 1,
            sign (manifestOwnerKey (arkSeed.deriveChild newSeed))
              ⟨SecretKey.publicKey (manifestOwnerKey (arkSeed.deriveChild newSeed)),
                MANIFEST_ENCODING, newCiphertext, 1⟩⟩) := by
    unfold createScratchpadOp
    rw [tryIntoScratchpad_of_match _ rfl]
    dsimp only [OwnedScratchpad.mk1]
    rw [h7o]
    rfl
  -- retiring the previous manifest from the intermediate state
  have hcurrent : currentHelmPk
      ⟨st.helmRegister ++ [newSeed],
        putPad st.pads (SecretKey.publicKey (manifestOwnerKey (arkSeed.deriveChild newSeed)))
          ⟨SecretKey.publicKey (manifestOwnerKey (arkSeed.deriveChild newSeed)),
            MANIFEST_ENCODING, newCiphertext, 1,
            sign (manifestOwnerKey (arkSeed.deriveChild newSeed))
              ⟨SecretKey.publicKey (manifestOwnerKey (arkSeed.deriveChild newSeed)),
                MANIFEST_ENCODING, newCiphertext, 1⟩⟩⟩
      (SecretKey.publicKey arkSeed)
      = .ok (PublicKey.deriveChild (SecretKey.publicKey arkSeed) newSeed) := by
    unfold currentHelmPk
    rw [show (HelmState.mk (st.helmRegister ++ [newSeed]) _).helmRegister
        = st.helmRegister ++ [newSeed] from rfl]
    rw [List.getLast?_concat]
  have hlook2 : lookupPad
      (putPad st.pads (SecretKey.publicKey (manifestOwnerKey (arkSeed.deriveChild newSeed)))
        ⟨SecretKey.publicKey (manifestOwnerKey (arkSeed.deriveChild newSeed)),
          MANIFEST_ENCODING, newCiphertext, 1,
          sign (manifestOwnerKey (arkSeed.deriveChild newSeed))
            ⟨SecretKey.publicKey (manifestOwnerKey (arkSeed.deriveChild newSeed)),
              MANIFEST_ENCODING, newCiphertext, 1⟩⟩)
      (SecretKey.publicKey (manifestOwnerKey (arkSeed.deriveChild oldSeed))) = some oldPad := by
    rw [lookupPad_putPad_ne _ _ _ _ haddr]
    exact h3o
  have hretire : retireManifest
      ⟨st.helmRegister ++ [newSeed],
        putPad st.pads (SecretKey.publicKey (manifestOwnerKey (arkSeed.deriveChild newSeed)))
          ⟨SecretKey.publicKey (manifestOwnerKey (arkSeed.deriveChild newSeed)),
            MANIFEST_ENCODING, newCiphertext, 1,
            sign (manifestOwnerKey (arkSeed.deriveChild newSeed))
              ⟨SecretKey.publicKey (manifestOwnerKey (arkSeed.deriveChild newSeed)),
                MANIFEST_ENCODING, newCiphertext, 1⟩⟩⟩
      (SecretKey.publicKey arkSeed) (arkSeed.deriveChild oldSeed)
      = .ok ⟨st.helmRegister ++ [newSeed],
          putPad
            (putPad st.pads
              (SecretKey.publicKey (manifestOwnerKey (arkSeed.deriveChild newSeed)))
              ⟨SecretKey.publicKey (manifestOwnerKey (arkSeed.deriveChild newSeed)),
                MANIFEST_ENCODING, newCiphertext, 1,
                sign (manifestOwnerKey (arkSeed.deriveChild newSeed))
                  ⟨SecretKey.publicKey (manifestOwnerKey (arkSeed.deriveChild newSeed)),
                    MANIFEST_ENCODING, newCiphertext, 1⟩⟩)
            (SecretKey.publicKey (manifestOwnerKey (arkSeed.deriveChild oldSeed)))
            ⟨SecretKey.publicKey (manifestOwnerKey (arkSeed.deriveChild oldSeed)),
              EOL_ENCODING, TOMBSTONE_VALUE, EOL_COUNTER,
              sign (manifestOwnerKey (arkSeed.deriveChild oldSeed))
                ⟨oldPad.owner, EOL_ENCODING, TOMBSTONE_VALUE, EOL_COUNTER⟩⟩⟩ := by
    unfold retireManifest
    rw [hcurrent]
    dsimp only
    rw [if_neg (by
      simp [PublicKey.deriveChild, SecretKey.publicKey, SecretKey.deriveChild, h2])]
    unfold retireScratchpadOp
    rw [hlook2]
    dsimp only
    rw [hparse]
    dsimp only
    rw [show PlaintextScratchpad.tryIntoOwned
        ⟨oldPad.content, oldPad.dataEncoding, oldPad.counter, oldPad.owner⟩
        (manifestOwnerKey (arkSeed.deriveChild oldSeed))
        = .ok ⟨manifestOwnerKey (arkSeed.deriveChild oldSeed),
            ⟨oldPad.content, oldPad.dataEncoding, oldPad.counter, oldPad.owner⟩⟩ from by
      unfold PlaintextScratchpad.tryIntoOwned
      rw [if_neg (by simp [h4o])]]
    dsimp only
    rw [show OwnedScratchpad.retire
        ⟨manifestOwnerKey (arkSeed.deriveChild oldSeed),
          ⟨oldPad.content, oldPad.dataEncoding, oldPad.counter, oldPad.owner⟩⟩
        = .ok ⟨SecretKey.publicKey (manifestOwnerKey (arkSeed.deriveChild oldSeed)),
            EOL_ENCODING, TOMBSTONE_VALUE, EOL_COUNTER,
            sign (manifestOwnerKey (arkSeed.deriveChild oldSeed))
              ⟨oldPad.owner, EOL_ENCODING, TOMBSTONE_VALUE, EOL_COUNTER⟩⟩ from by
      unfold OwnedScratchpad.retire
      rw [if_neg (by
        simp [OwnedScratchpad.isRetired, PlaintextScratchpad.isRetired, h5, hEncNeq])]
      rw [if_neg (by
        simp [OwnedScratchpad.isMutable, PlaintextScratchpad.isMutable, h6])]
      rw [tryIntoScratchpad_of_match _ h4o.symm]]
  -- the intermediate live-manifest facts
  have hlive0 : liveManifestAt st.pads
      (SecretKey.publicKey (manifestOwnerKey (arkSeed.deriveChild oldSeed))) = true := by
    unfold liveManifestAt
    rw [h3o]
    simp [hnotret, h5]
  have hlive2n : liveManifestAt
      (putPad st.pads (SecretKey.publicKey (manifestOwnerKey (arkSeed.deriveChild newSeed)))
        ⟨SecretKey.publicKey (manifestOwnerKey (arkSeed.deriveChild newSeed)),
          MANIFEST_ENCODING, newCiphertext, 1,
          sign (manifestOwnerKey (arkSeed.deriveChild newSeed))
            ⟨SecretKey.publicKey (manifestOwnerKey (arkSeed.deriveChild newSeed)),
              MANIFEST_ENCODING, newCiphertext, 1⟩⟩)
      (SecretKey.publicKey (manifestOwnerKey (arkSeed.deriveChild newSeed))) = true := by
    unfold liveManifestAt
    rw [lookupPad_putPad_self]
    simp [Scratchpad.isRetired, hEncNeq]
  have hlive2o : liveManifestAt
      (putPad st.pads (SecretKey.publicKey (manifestOwnerKey (arkSeed.deriveChild newSeed)))
        ⟨SecretKey.publicKey (manifestOwnerKey (arkSeed.deriveChild newSeed)),
          MANIFEST_ENCODING, newCiphertext, 1,
          sign (manifestOwnerKey (arkSeed.deriveChild newSeed))
            ⟨SecretKey.publicKey (manifestOwnerKey (arkSeed.deriveChild newSeed)),
              MANIFEST_ENCODING, newCiphertext, 1⟩⟩)
      (SecretKey.publicKey (manifestOwnerKey (arkSeed.deriveChild oldSeed))) = true := by
    unfold liveManifestAt
    rw [hlook2]
    simp [hnotret, h5]
  have hlive3n : liveManifestAt
      (putPad
        (putPad st.pads (SecretKey.publicKey (manifestOwnerKey (arkSeed.deriveChild newSeed)))
          ⟨SecretKey.publicKey (manifestOwnerKey (arkSeed.deriveChild newSeed)),
            MANIFEST_ENCODING, newCiphertext, 1,
            sign (manifestOwnerKey (arkSeed.deriveChild newSeed))
              ⟨SecretKey.publicKey (manifestOwnerKey (arkSeed.deriveChild newSeed)),
                MANIFEST_ENCODING, newCiphertext, 1⟩⟩)
        (SecretKey.publicKey (manifestOwnerKey (arkSeed.deriveChild oldSeed)))
        ⟨SecretKey.publicKey (manifestOwnerKey (arkSeed.deriveChild oldSeed)),
          EOL_ENCODING, TOMBSTONE_VALUE, EOL_COUNTER,
          sign (manifestOwnerKey (arkSeed.deriveChild oldSeed))
            ⟨oldPad.owner, EOL_ENCODING, TOMBSTONE_VALUE, EOL_COUNTER⟩⟩)
      (SecretKey.publicKey (manifestOwnerKey (arkSeed.deriveChild newSeed))) = true := by
    unfold liveManifestAt
    rw [lookupPad_putPad_ne _ _ _ _ (Ne.symm haddr), lookupPad_putPad_self]
    simp [Scratchpad.isRetired, hEncNeq]
  have htombret : (⟨SecretKey.publicKey (manifestOwnerKey (arkSeed.deriveChild oldSeed)),
      EOL_ENCODING, TOMBSTONE_VALUE, EOL_COUNTER,
      sign (manifestOwnerKey (arkSeed.deriveChild oldSeed))
        ⟨oldPad.owner, EOL_ENCODING, TOMBSTONE_VALUE, EOL_COUNTER⟩⟩ : Scratchpad).isRetired
      = true := by
    simp [Scratchpad.isRetired, Scratchpad.isMutable, EOL_ENCODING, EOL_COUNTER,
      TOMBSTONE_VALUE]
  refine ⟨⟨st.helmRegister ++ [newSeed], st.pads⟩,
    ⟨st.helmRegister ++ [newSeed],
      putPad st.pads (SecretKey.publicKey (manifestOwnerKey (arkSeed.deriveChild newSeed)))
        ⟨SecretKey.publicKey (manifestOwnerKey (arkSeed.deriveChild newSeed)),
          MANIFEST_ENCODING, newCiphertext, 1,
          sign (manifestOwnerKey (arkSeed.deriveChild newSeed))
            ⟨SecretKey.publicKey (manifestOwnerKey (arkSeed.deriveChild newSeed)),
              MANIFEST_ENCODING, newCiphertext, 1⟩⟩⟩,
    ⟨st.helmRegister ++ [newSeed],
      putPad
        (putPad st.pads (SecretKey.publicKey (manifestOwnerKey (arkSeed.deriveChild newSeed)))
          ⟨SecretKey.publicKey (manifestOwnerKey (arkSeed.deriveChild newSeed)),
            MANIFEST_ENCODING, newCiphertext, 1,
            sign (manifestOwnerKey (arkSeed.deriveChild newSeed))
              ⟨SecretKey.publicKey (manifestOwnerKey (arkSeed.deriveChild newSeed)),
                MANIFEST_ENCODING, newCiphertext, 1⟩⟩)
        (SecretKey.publicKey (manifestOwnerKey (arkSeed.deriveChild oldSeed)))
        ⟨SecretKey.publicKey (manifestOwnerKey (arkSeed.deriveChild oldSeed)),
          EOL_ENCODING, TOMBSTONE_VALUE, EOL_COUNTER,
          sign (manifestOwnerKey (arkSeed.deriveChild oldSeed))
            ⟨oldPad.owner, EOL_ENCODING, TOMBSTONE_VALUE, EOL_COUNTER⟩⟩⟩,
    ?_, ?_, ?_, ?_, ?_, ?_⟩
  · unfold rotateHelm
    simp only [h1, h3, hparse, bind, Except.bind]
    simp only [hcreate, hretire, bind, Except.bind, pure, Except.pure]
  · intro s hs
    simp only [List.mem_cons, List.not_mem_nil, or_false] at hs
    rcases hs with hs | hs | hs | hs
    · exact ⟨_, by rw [hs]; exact hlive0⟩
    · exact ⟨_, by rw [hs]; exact hlive0⟩
    · exact ⟨_, by rw [hs]; exact hlive2n⟩
    · exact ⟨_, by rw [hs]; exact hlive3n⟩
  · exact hlive2n
  · exact hlive2o
  · refine ⟨_, lookupPad_putPad_self _ _ _, htombret⟩
  · exact hlive3n

/-- C3 witness: the rotation theorem applied to a concrete one-manifest
state — the rotation succeeds and the previous manifest ends retired. -/
theorem c3_witness :
    ∃ st1 st2 st3 : HelmState,
      rotateHelm
          ⟨[1], [(manifestAddr (SecretKey.publicKey (SecretKey.deriveChild ⟨.base 0⟩ 1)),
            ⟨manifestAddr (SecretKey.publicKey (SecretKey.deriveChild ⟨.base 0⟩ 1)),
              MANIFEST_ENCODING, [7], 1, sign ⟨.base 0⟩ ⟨⟨.base 0⟩, 0, [], 0⟩⟩)]⟩
          ⟨.base 0⟩ 2 [9]
        = .ok [⟨[1], [(manifestAddr (SecretKey.publicKey (SecretKey.deriveChild ⟨.base 0⟩ 1)),
            ⟨manifestAddr (SecretKey.publicKey (SecretKey.deriveChild ⟨.base 0⟩ 1)),
              MANIFEST_ENCODING, [7], 1, sign ⟨.base 0⟩ ⟨⟨.base 0⟩, 0, [], 0⟩⟩)]⟩,
            st1, st2, st3] ∧
      (∃ tomb : Scratchpad,
        lookupPad st3.pads
          (manifestAddr (SecretKey.publicKey (SecretKey.deriveChild ⟨.base 0⟩ 1)))
          = some tomb ∧ tomb.isRetired = true) := by
  obtain ⟨st1, st2, st3, heq, _, _, _, htomb, _⟩ :=
    c3_helm_rotation_live_manifests ⟨.base 0⟩
      ⟨[1], [(manifestAddr (SecretKey.publicKey (SecretKey.deriveChild ⟨.base 0⟩ 1)),
        ⟨manifestAddr (SecretKey.publicKey (SecretKey.deriveChild ⟨.base 0⟩ 1)),
          MANIFEST_ENCODING, [7], 1, sign ⟨.base 0⟩ ⟨⟨.base 0⟩, 0, [], 0⟩⟩)]⟩
      1 2
      ⟨manifestAddr (SecretKey.publicKey (SecretKey.deriveChild ⟨.base 0⟩ 1)),
        MANIFEST_ENCODING, [7], 1, sign ⟨.base 0⟩ ⟨⟨.base 0⟩, 0, [], 0⟩⟩
      [9] rfl (by decide) (by decide) rfl rfl (by decide) (by decide)
  exact ⟨st1, st2, st3, heq, htomb⟩

end Ark
